import Mathlib

/-
Verification of the GeneFlow workflow runtime (CDCgov/geneflow2).

The definitions below are a shallow embedding of the step-executor and
workflow-runtime code in src/geneflow.  Pure fragments of the Python code
become Lean functions; the executor loops that mutate map items become
explicit state-passing functions over a MapItem structure; calls into
external systems (DRMAA submission and polling, shell spawning, HTTP POST,
the data manager listing) become oracle parameters that range over every
outcome the Python code distinguishes.

Sources embedded (file -> Lean definitions):
  geneflow/extend/local_step.py       localRunMap, localRun, localCheckItem,
                                      localRetryFailed, localGetMapUriList
  geneflow/extend/gridengine_step.py  geRunMap, geRun, geCheckItem,
                                      geRetryFailed, geGetMapUriList,
                                      geStatusMap
  geneflow/extend/slurm_step.py       slurmRunMap, slurmRun, slurmCheckItem,
                                      slurmRetryFailed, slurmGetMapUriList,
                                      slurmStatusMap
  geneflow/extend/agave_step.py       agaveJobName
  geneflow/workflow.py                injectJobParams, initJobWorkUris,
                                      initJobOutputUri, notifyLoop,
                                      updateStatusDbNotify
-/

set_option maxRecDepth 8000

namespace GeneFlow

/-- Engine-level job status values used by the step executors
(PENDING, QUEUED, RUNNING, FINISHED, FAILED, UNKNOWN). -/
inductive Status where
  | pending
  | queued
  | running
  | finished
  | failed
  | unknown
deriving DecidableEq

/-- One run-attempt record of a map item.  A fresh record is an empty
Python dict, so every field starts absent. -/
structure RunAttempt where
  hpcJobId : Option Nat := none
  pid : Option Nat := none
  status : Option Status := none
deriving DecidableEq

instance : Inhabited RunAttempt := ⟨{}⟩

/-- A fresh, empty run-attempt record (the Python literal dict with no keys). -/
def emptyRunAttempt : RunAttempt := {}

/-- A map item as the executors mutate it: current status, retry counter
(attempt) and the list of run-attempt records. -/
structure MapItem where
  filename : String := ""
  outputName : String := ""
  status : Status := Status.pending
  attempt : Nat := 0
  run : List RunAttempt := [emptyRunAttempt]
deriving DecidableEq

instance : Inhabited MapItem := ⟨{}⟩

/-- Modelled from the spec: workflow_step.py (the WorkflowStep base class,
whose iterate_map_uri creates the map items) is not among the provided
sources.  Invariant I5 of the spec fixes the initial shape: a fresh item is
PENDING with attempt 0 and one (empty) run-attempt record. -/
def newMapItem (filename outputName : String) : MapItem :=
  { filename := filename, outputName := outputName }

/-- Update run[attempt] in place, as the Python executors do with
map_item.run[map_item.attempt][key] = value. -/
def setRunEntry (it : MapItem) (f : RunAttempt → RunAttempt) : MapItem :=
  { it with run := it.run.set it.attempt (f (it.run.getD it.attempt emptyRunAttempt)) }

/-- The write map_item.run[map_item.attempt].status = s performed by every
executor after changing the item status. -/
def setRunStatus (it : MapItem) (s : Status) : MapItem :=
  setRunEntry it (fun r => { r with status := some s })

/-! ### Slug and job-name construction -/

/-- Characters kept by the slug character class [-a-z0-9_]. -/
def slugAllowed (c : Char) : Bool :=
  c = '-' || c = '_' || ('a' ≤ c && c ≤ 'z') || ('0' ≤ c && c ≤ '9')

/-- Collapse consecutive dashes into one. -/
def collapseDashes : List Char → List Char
  | [] => []
  | [c] => [c]
  | c :: d :: rest =>
    if c = '-' ∧ d = '-' then collapseDashes (d :: rest)
    else c :: collapseDashes (d :: rest)

/-- Strip leading and trailing dashes. -/
def trimDashes (l : List Char) : List Char :=
  ((l.dropWhile (fun c => c = '-')).reverse.dropWhile (fun c => c = '-')).reverse

/-- Modelled from the spec: the slugify library (python-slugify) is external
to this repository.  Every call site passes regex_pattern [^-a-z0-9_]+, and
the spec describes the result as lowercasing and replacing every run of
characters outside [-a-z0-9_] by a dash; the library also collapses repeated
dashes and strips them from both ends. -/
def slug (s : String) : String :=
  String.mk (trimDashes (collapseDashes (s.toList.map (fun c =>
    let lc := c.toLower
    if slugAllowed lc then lc else '-'))))

/-- The raw job name gf-(attempt)-(slug step name)-(slug template.output)
built by every backend executor before submission. -/
def gfJobName (attempt : Nat) (stepName outputName : String) : String :=
  "gf-" ++ toString attempt ++ "-" ++ slug stepName ++ "-" ++ slug outputName

/-- Job name used by SlurmStep._run_map as jt.jobName (slurm_step.py
lines 294 to 298): the raw name, with no truncation.  GridengineStep and
LocalStep build the identical string. -/
def slurmJobName (attempt : Nat) (stepName outputName : String) : String :=
  gfJobName attempt stepName outputName

/-- Job name used by AgaveStep._run_map (agave_step.py lines 279 to 284):
a name longer than 64 characters becomes its first 62 characters followed
by two dots. -/
def agaveJobName (attempt : Nat) (stepName outputName : String) : String :=
  let name := gfJobName attempt stepName outputName
  if 64 < name.length then name.take 62 ++ ".." else name

/-! ### DRMAA status mapping and polling -/

/-- The DRMAA job states distinguished by the drmaa library. -/
inductive DrmaaState where
  | undetermined
  | queuedActive
  | systemOnHold
  | userOnHold
  | userSystemOnHold
  | running
  | systemSuspended
  | userSuspended
  | done
  | failed
deriving DecidableEq

/-- SlurmStep job status map (slurm_step.py lines 57 to 68). -/
def slurmStatusMap : DrmaaState → Status
  | .undetermined => .unknown
  | .queuedActive => .pending
  | .systemOnHold => .pending
  | .userOnHold => .pending
  | .userSystemOnHold => .pending
  | .running => .running
  | .systemSuspended => .running
  | .userSuspended => .running
  | .done => .finished
  | .failed => .failed

/-- GridengineStep job status map (gridengine_step.py lines 58 to 69). -/
def geStatusMap : DrmaaState → Status
  | .undetermined => .unknown
  | .queuedActive => .queued
  | .systemOnHold => .queued
  | .userOnHold => .queued
  | .userSystemOnHold => .queued
  | .running => .running
  | .systemSuspended => .running
  | .userSuspended => .running
  | .done => .finished
  | .failed => .failed

/-- Outcome of one drmaa_session.jobStatus call: a DRMAA state, or a
DrmCommunicationException. -/
inductive PollOutcome where
  | state (ds : DrmaaState)
  | commError
deriving DecidableEq

/-- The status computed by the DRMAA poll body for one non-terminal item:
map the DRMAA state through the executor status map (UNKNOWN on a
communication exception); when the mapped status is terminal consult
wait().exitStatus and downgrade to FAILED when it is positive. -/
def drmaaPolledStatus (statusMap : DrmaaState → Status) (p : PollOutcome)
    (exitStatus : Nat) : Status :=
  let s := match p with
    | .state ds => statusMap ds
    | .commError => .unknown
  if s = Status.finished ∨ s = Status.failed then
    if 0 < exitStatus then Status.failed else s
  else s

/-! ### Submission -/

/-- Outcome of one DRMAA runJob submission as distinguished by _run_map:
success with a job id, a DrmCommunicationException, or the fatal
wrapper-script-not-found path (shutil.which returned nothing). -/
inductive SubmitOutcome where
  | ok (jobId : Nat)
  | commError
  | fatal
deriving DecidableEq

/-- Common body of SlurmStep._run_map and GridengineStep._run_map: on a
communication exception mark the item FAILED but report success so it is
retried; on success record the hpc job id and set the submit status
(PENDING for slurm, QUEUED for gridengine); the fatal path returns False
without touching the item. -/
def drmaaRunMap (submitStatus : Status) (o : SubmitOutcome) (it : MapItem) :
    Option MapItem :=
  match o with
  | .fatal => none
  | .commError => some (setRunStatus { it with status := Status.failed } Status.failed)
  | .ok jobId =>
    let it1 := setRunEntry it (fun r => { r with hpcJobId := some jobId })
    some (setRunStatus { it1 with status := submitStatus } submitStatus)

/-- SlurmStep._run_map (slurm_step.py lines 217 to 361): submit status PENDING. -/
def slurmRunMap (o : SubmitOutcome) (it : MapItem) : Option MapItem :=
  drmaaRunMap Status.pending o it

/-- GridengineStep._run_map (gridengine_step.py lines 246 to 390): submit
status QUEUED. -/
def geRunMap (o : SubmitOutcome) (it : MapItem) : Option MapItem :=
  drmaaRunMap Status.queued o it

/-- Outcome of one ShellWrapper.spawn call in LocalStep._run_map. -/
inductive SpawnOutcome where
  | ok (pid : Nat)
  | fail
deriving DecidableEq

/-- LocalStep._run_map (local_step.py lines 228 to 314): on success record
the pid and set status RUNNING; a failed spawn is the fatal path. -/
def localRunMap (o : SpawnOutcome) (it : MapItem) : Option MapItem :=
  match o with
  | .fail => none
  | .ok pid =>
    let it1 := setRunEntry it (fun r => { r with pid := some pid })
    some (setRunStatus { it1 with status := Status.running } Status.running)

/-! ### The run() loops -/

/-- Shared shape of LocalStep.run (local_step.py lines 317 to 358) and
GridengineStep.run (gridengine_step.py lines 393 to 434), after the entry
throttle gate: walk the map items in order; a PENDING item is submitted via
_run_map (rm, indexed by submission count); a fatal _run_map marks the item
FAILED without counting it; a counted submission that reaches the throttle
limit k breaks out of the loop.  Returns the processed items, the new
num_running counter, and one submitted flag per item. -/
def throttledRunGo (rm : Nat → MapItem → Option MapItem) (k : Nat) :
    Nat → Nat → List MapItem → List MapItem × Nat × List Bool
  | _, n, [] => ([], n, [])
  | i, n, it :: rest =>
    if it.status = Status.pending then
      match rm i it with
      | none =>
        let it2 := setRunStatus { it with status := Status.failed } Status.failed
        let r := throttledRunGo rm k (i + 1) n rest
        (it2 :: r.1, r.2.1, true :: r.2.2)
      | some it2 =>
        if 0 < k ∧ k ≤ n + 1 then
          (it2 :: rest, n + 1, true :: List.replicate rest.length false)
        else
          let r := throttledRunGo rm k (i + 1) (n + 1) rest
          (it2 :: r.1, r.2.1, true :: r.2.2)
    else
      let r := throttledRunGo rm k i n rest
      (it :: r.1, r.2.1, false :: r.2.2)

/-- run() of the local and gridengine executors: when the throttle limit is
positive and num_running has already reached it, return without submitting
anything; otherwise run the submission loop. -/
def throttledRun (rm : Nat → MapItem → Option MapItem) (k : Nat)
    (items : List MapItem) (n : Nat) : List MapItem × Nat × List Bool :=
  if 0 < k ∧ k ≤ n then (items, n, List.replicate items.length false)
  else throttledRunGo rm k 0 n items

/-- GridengineStep.run (gridengine_step.py lines 393 to 434). -/
def geRun (oracle : Nat → SubmitOutcome) (k : Nat) (items : List MapItem)
    (n : Nat) : List MapItem × Nat × List Bool :=
  throttledRun (fun i it => geRunMap (oracle i) it) k items n

/-- LocalStep.run (local_step.py lines 317 to 358). -/
def localRun (oracle : Nat → SpawnOutcome) (k : Nat) (items : List MapItem)
    (n : Nat) : List MapItem × Nat × List Bool :=
  throttledRun (fun i it => localRunMap (oracle i) it) k items n

/-- SlurmStep.run (slurm_step.py lines 364 to 388): submit every map item
via _run_map, with no status filter and no throttle gate; a fatal _run_map
aborts the call (run returns the _fatal False).  Returns the items, one
submitted flag per item, and the success flag of the call. -/
def slurmRunGo (oracle : Nat → SubmitOutcome) :
    Nat → List MapItem → List MapItem × List Bool × Bool
  | _, [] => ([], [], true)
  | i, it :: rest =>
    match slurmRunMap (oracle i) it with
    | none => (it :: rest, false :: List.replicate rest.length false, false)
    | some it2 =>
      let r := slurmRunGo oracle (i + 1) rest
      (it2 :: r.1, true :: r.2.1, r.2.2)

/-- SlurmStep.run on a full item list.  The throttle limit argument mirrors
the _throttle_limit attribute every step object carries; the slurm code
never reads it. -/
def slurmRun (oracle : Nat → SubmitOutcome) (_throttleLimit : Nat)
    (items : List MapItem) : List MapItem × List Bool × Bool :=
  slurmRunGo oracle 0 items

/-! ### Retry and the poll loops -/

/-- Common body of retry_failed in the slurm and gridengine executors
(slurm_step.py lines 467 to 499, gridengine_step.py lines 519 to 551):
increment attempt, append one fresh run-attempt record, then call _run_map;
report False when _run_map hit its fatal path. -/
def retryFailedWith (rm : MapItem → Option MapItem) (it : MapItem) :
    MapItem × Bool :=
  let it1 := { it with attempt := it.attempt + 1, run := it.run ++ [emptyRunAttempt] }
  match rm it1 with
  | none => (it1, false)
  | some it2 => (it2, true)

/-- SlurmStep.retry_failed. -/
def slurmRetryFailed (sub : SubmitOutcome) (it : MapItem) : MapItem × Bool :=
  retryFailedWith (slurmRunMap sub) it

/-- GridengineStep.retry_failed. -/
def geRetryFailed (sub : SubmitOutcome) (it : MapItem) : MapItem × Bool :=
  retryFailedWith (geRunMap sub) it

/-- One iteration of SlurmStep.check_running_jobs (slurm_step.py lines 407
to 464) for one map item: poll unless the item is already FINISHED or
FAILED, write the run-attempt status, then retry whenever the item is
FAILED with attempt below 5 (no throttle gate). -/
def slurmCheckItem (p : PollOutcome) (exitStatus : Nat) (sub : SubmitOutcome)
    (it : MapItem) : MapItem :=
  let it1 :=
    if it.status = Status.finished ∨ it.status = Status.failed then it
    else { it with status := drmaaPolledStatus slurmStatusMap p exitStatus }
  let it2 := setRunStatus it1 it1.status
  if it2.status = Status.failed ∧ it2.attempt < 5 then (slurmRetryFailed sub it2).1
  else it2

/-- One iteration of GridengineStep.check_running_jobs (gridengine_step.py
lines 453 to 516) for one map item, threading num_running: poll unless the
item is FINISHED, FAILED or PENDING; on a transition to a terminal status
decrement num_running (guarded at zero); write the run-attempt status; then
retry only when the item is FAILED with attempt below 5 and the throttle
admits it (limit 0 or num_running below the limit), incrementing
num_running when retry_failed reports success. -/
def geCheckItem (p : PollOutcome) (exitStatus : Nat) (sub : SubmitOutcome)
    (k : Nat) (it : MapItem) (n : Nat) : MapItem × Nat :=
  let pr :=
    if it.status = Status.finished ∨ it.status = Status.failed ∨ it.status = Status.pending then
      (it, n)
    else
      let s := drmaaPolledStatus geStatusMap p exitStatus
      if s = Status.finished ∨ s = Status.failed then ({ it with status := s }, n - 1)
      else ({ it with status := s }, n)
  let it2 := setRunStatus pr.1 pr.1.status
  let n1 := pr.2
  if it2.status = Status.failed ∧ it2.attempt < 5 ∧ (k = 0 ∨ n1 < k) then
    let r := geRetryFailed sub it2
    (r.1, if r.2 then n1 + 1 else n1)
  else (it2, n1)

/-- GridengineStep.check_running_jobs over the whole map, threading
num_running through the items with per-item oracles. -/
def geCheckGo (po : Nat → PollOutcome) (eo : Nat → Nat)
    (so : Nat → SubmitOutcome) (k : Nat) :
    Nat → List MapItem → Nat → List MapItem × Nat
  | _, [], n => ([], n)
  | i, it :: rest, n =>
    let pr := geCheckItem (po i) (eo i) (so i) k it n
    let r := geCheckGo po eo so k (i + 1) rest pr.2
    (pr.1 :: r.1, r.2)

/-- Outcome of polling one local process in LocalStep.check_running_jobs:
still running, exited with a return code, or an OSError/AttributeError. -/
inductive LocalPollOutcome where
  | stillRunning
  | exited (returncode : Int)
  | pollError
deriving DecidableEq

/-- One iteration of LocalStep.check_running_jobs (local_step.py lines 384
to 431) for one map item, threading num_running: only RUNNING or UNKNOWN
items are polled; a finished process becomes FAILED on a truthy return code
and FINISHED otherwise, decrementing num_running (guarded at zero); a poll
error makes the item UNKNOWN; the run-attempt status write happens inside
the polled branch; every other item is untouched.  There is no retry. -/
def localCheckItem (p : LocalPollOutcome) (it : MapItem) (n : Nat) :
    MapItem × Nat :=
  if it.status = Status.running ∨ it.status = Status.unknown then
    match p with
    | .stillRunning => (setRunStatus it it.status, n)
    | .exited rc =>
      let s := if rc ≠ 0 then Status.failed else Status.finished
      (setRunStatus { it with status := s } s, n - 1)
    | .pollError => (setRunStatus { it with status := Status.unknown } Status.unknown, n)
  else (it, n)

/-- Severity levels of the Log calls made by the executors. -/
inductive LogLevel where
  | debug
  | info
  | warning
  | error
deriving DecidableEq

/-- LocalStep.retry_failed (local_step.py lines 434 to 449): logs
"retry not yet supported for local apps" at error severity and returns the
_fatal failure indicator, touching no map item.  (The _fatal helper lives
in the WorkflowStep base class, absent from the sources; modelled from the
spec as returning the False failure indicator.) -/
def localRetryFailed (items : List MapItem) : List MapItem × Bool × LogLevel :=
  (items, false, LogLevel.error)

/-! ### Gridengine step state machine (throttle invariant) -/

/-- The mutable per-step state the gridengine executor threads between
observation points: the map items and the num_running counter. -/
structure GEState where
  items : List MapItem
  numRunning : Nat
deriving DecidableEq

/-- One run() call on a gridengine step state. -/
def geRunState (oracle : Nat → SubmitOutcome) (k : Nat) (s : GEState) : GEState :=
  let r := geRun oracle k s.items s.numRunning
  ⟨r.1, r.2.1⟩

/-- One check_running_jobs() call on a gridengine step state. -/
def geCheckState (po : Nat → PollOutcome) (eo : Nat → Nat)
    (so : Nat → SubmitOutcome) (k : Nat) (s : GEState) : GEState :=
  let r := geCheckGo po eo so k 0 s.items s.numRunning
  ⟨r.1, r.2⟩

/-- States of a gridengine step reachable by the runtime polling loop:
start from the map items produced by iterate_map_uri (all PENDING,
num_running 0, shape modelled from the spec since the WorkflowStep base
class is not among the sources), then any interleaving of run() and
check_running_jobs() calls with arbitrary backend responses. -/
inductive GEReach (k : Nat) : GEState → Prop where
  | init (items : List MapItem) (h : ∀ it ∈ items, it.status = Status.pending) :
      GEReach k ⟨items, 0⟩
  | runStep (oracle : Nat → SubmitOutcome) (s : GEState) (h : GEReach k s) :
      GEReach k (geRunState oracle k s)
  | checkStep (po : Nat → PollOutcome) (eo : Nat → Nat)
      (so : Nat → SubmitOutcome) (s : GEState) (h : GEReach k s) :
      GEReach k (geCheckState po eo so k s)

/-- A status of a submitted job that is not yet terminal (QUEUED, RUNNING
or UNKNOWN); PENDING items have not been handed to the backend. -/
def isInFlight : Status → Bool
  | .queued | .running | .unknown => true
  | _ => false

/-- Number of submitted, non-terminal map items. -/
def inFlightCount (items : List MapItem) : Nat :=
  (items.filter (fun it => isInFlight it.status)).length

/-- Number of map items that are neither FINISHED nor FAILED (the literal
reading of non-terminal in the spec). -/
def nonTerminalCount (items : List MapItem) : Nat :=
  (items.filter (fun it =>
    ¬(it.status = Status.finished ∨ it.status = Status.failed))).length

/-! ### Map URI listing -/

/-- A parsed URI as the data model describes it (scheme, authority, path
split into folder and last-segment name, chopped forms). -/
structure ParsedURI where
  scheme : String
  authority : String
  folder : String
  name : String
  choppedUri : String
  choppedPath : String
deriving DecidableEq

/-- One element of the combined file list produced by _get_map_uri_list:
the chopped URI of the folder holding the file plus the file name. -/
structure MapUriEntry where
  choppedUri : String
  filename : String
deriving DecidableEq

/-- Modelled from the spec: URIParser.parse (uri_parser.py is not among the
sources).  Splits scheme://authority/path, with name the last path segment
and folder its parent, as section 3 of the spec describes the parsed form. -/
def reparseUri (uriStr : String) : ParsedURI :=
  match uriStr.splitOn "://" with
  | sch :: rest :: _ =>
    let segs := rest.splitOn "/"
    let auth := segs.headD ""
    let pathSegs := segs.tail
    let nm := pathSegs.getLastD ""
    let folder := String.join (pathSegs.dropLast.map (fun s => "/" ++ s))
    let choppedPath := String.join (pathSegs.map (fun s => "/" ++ s))
    ⟨sch, auth, folder, nm, sch ++ "://" ++ auth ++ choppedPath, choppedPath⟩
  | _ => ⟨"", "", "", "", "", ""⟩

/-- The entry the local and gridengine _get_map_uri_list loops build for one
listed file: a name containing a slash is reparsed to keep the folder and
name split consistent; otherwise the map URI itself is the folder. -/
def fileEntry (uri : ParsedURI) (f : String) : MapUriEntry :=
  if f.contains '/' then
    let nu := reparseUri (uri.choppedUri ++ "/" ++ f)
    ⟨nu.scheme ++ "://" ++ nu.authority ++ nu.folder, nu.name⟩
  else ⟨uri.choppedUri, f⟩

/-- The entry built for the map URI itself when inclusive filtering accepts
its name. -/
def inclusiveEntry (uri : ParsedURI) : MapUriEntry :=
  ⟨uri.scheme ++ "://" ++ uri.authority ++ uri.folder, uri.name⟩

/-- Body of LocalStep._get_map_uri_list (local_step.py lines 157 to 225)
and GridengineStep._get_map_uri_list (gridengine_step.py lines 176 to 243)
for one map URI: with inclusive set, the URI itself is appended first when
its name passes the glob filter (globMatch stands for the external
wcmatch glob.globfilter call); then one entry per listed file.  The files
argument is the DataManager.list result for the URI. -/
def geLocalMapUriPerUri (globMatch : String → String → Bool) (globPat : String)
    (inclusive : Bool) (uri : ParsedURI) (files : List String) : List MapUriEntry :=
  (if inclusive ∧ globMatch globPat uri.name then [inclusiveEntry uri] else [])
    ++ files.map (fileEntry uri)

/-- LocalStep._get_map_uri_list over all parsed map URIs. -/
def localGetMapUriList (globMatch : String → String → Bool) (globPat : String)
    (inclusive : Bool) (uris : List (ParsedURI × List String)) : List MapUriEntry :=
  uris.foldr
    (fun pr acc => geLocalMapUriPerUri globMatch globPat inclusive pr.1 pr.2 ++ acc) []

/-- GridengineStep._get_map_uri_list over all parsed map URIs (identical
loop body to the local executor). -/
def geGetMapUriList (globMatch : String → String → Bool) (globPat : String)
    (inclusive : Bool) (uris : List (ParsedURI × List String)) : List MapUriEntry :=
  localGetMapUriList globMatch globPat inclusive uris

/-- SlurmStep._get_map_uri_list (slurm_step.py lines 175 to 214): one entry
per listed file, with the map URI as the folder; the inclusive flag of the
step map definition is never consulted and no slash reparse happens. -/
def slurmGetMapUriList (_inclusive : Bool) (uris : List (ParsedURI × List String)) :
    List MapUriEntry :=
  uris.foldr (fun pr acc => pr.2.map (fun f => MapUriEntry.mk pr.1.choppedUri f) ++ acc) []

/-! ### Work and output URI construction -/

/-- Python dict lookup by key in an ordered association list (dicts keep
unique keys, so first match is the match). -/
def assocGet {α : Type} : List (String × α) → String → Option α
  | [], _ => none
  | (k, v) :: rest, key => if k = key then some v else assocGet rest key

/-- The two parsed-URI fields Workflow._init_job_uris reads from a
configured base URI. -/
structure UriCP where
  choppedUri : String
  choppedPath : String
deriving DecidableEq

/-- The unhashed job directory name slug(job name). -/
def jobDirOf (name : String) : String := slug name

/-- The hashed job directory name slug(job name)-(first 8 of job_id). -/
def jobDirHashOf (name jobId : String) : String :=
  slug name ++ "-" ++ jobId.take 8

/-- Append a job directory to a base URI as _init_job_uris does, avoiding a
double slash when the chopped path is the root. -/
def appendJobDir (p : UriCP) (d : String) : String :=
  if p.choppedPath = "/" then p.choppedUri ++ d else p.choppedUri ++ "/" ++ d

/-- Work-URI construction of Workflow._init_job_uris (workflow.py lines 471
to 511): for each data context derived from the execution contexts, look up
the configured work URI (fatal when missing) and append the hashed job
directory. -/
def initJobWorkUris (workUri : List (String × UriCP)) (name jobId : String) :
    List String → Option (List (String × String))
  | [] => some []
  | c :: rest =>
    match assocGet workUri c with
    | none => none
    | some p =>
      match initJobWorkUris workUri name jobId rest with
      | none => none
      | some l => some ((c, appendJobDir p (jobDirHashOf name jobId)) :: l)

/-- Output-URI construction of Workflow._init_job_uris (workflow.py lines
514 to 541): append the unhashed directory when no_output_hash is set and
the hashed one otherwise. -/
def initJobOutputUri (p : UriCP) (noOutputHash : Bool) (name jobId : String) : String :=
  appendJobDir p (if noOutputHash then jobDirOf name else jobDirHashOf name jobId)

/-! ### Job parameter injection -/

/-- A Python dict from parameter names to values, with insertion order. -/
abbrev PDict := List (String × String)

/-- Python dict assignment d[key] = v: overwrite in place or append. -/
def dictSet : PDict → String → String → PDict
  | [], key, v => [(key, v)]
  | (k, w) :: rest, key, v =>
    if k = key then (k, v) :: rest else (k, w) :: dictSet rest key v

/-- Python dict read d.get(key). -/
def dictGet (d : PDict) (key : String) : Option String :=
  assocGet d key

/-- The execution section of a job record: context, method and parameters,
each with a default and optional per-step overrides. -/
structure JobExec where
  contextDefault : String
  contextPerStep : List (String × String)
  methodDefault : String
  methodPerStep : List (String × String)
  paramsDefault : PDict
  paramsPerStep : List (String × PDict)

/-- The execution dict injected into one workflow step; the parameters dict
is stored on a heap of dict objects and referenced by address, so that
aliasing between steps is observable. -/
structure StepExec where
  context : String
  method : String
  paramsAddr : Nat
deriving DecidableEq

/-- A heap of Python dict objects; an address is an index.  Address 0 holds
the job record default parameters dict itself. -/
abbrev Store := List PDict

/-- The parameters dict value computed for one step: a deep copy of the job
default parameters updated key by key (Python dict assignment) with the
per-step overrides, when any are present. -/
def stepParamsOf (je : JobExec) (stepName : String) : PDict :=
  match assocGet je.paramsPerStep stepName with
  | none => je.paramsDefault
  | some ov => ov.foldl (fun d kv => dictSet d kv.1 kv.2) je.paramsDefault

/-- The per-step body of Workflow._inject_job_params (workflow.py lines 363
to 381): context and method take the per-step override when present and the
default otherwise; the parameters dict is a deep copy of the default
(allocated as a fresh heap cell) updated key by key with the overrides of
this step. -/
def injectStep (je : JobExec) (store : Store) (stepName : String) :
    StepExec × Store :=
  let addr := store.length
  let ctx := (assocGet je.contextPerStep stepName).getD je.contextDefault
  let mth := (assocGet je.methodPerStep stepName).getD je.methodDefault
  (⟨ctx, mth, addr⟩, store ++ [stepParamsOf je stepName])

/-- The loop of Workflow._inject_job_params over a list of step names,
threading the heap of allocated dicts. -/
def injectSteps (je : JobExec) (store : Store) : List String → List StepExec × Store
  | [] => ([], store)
  | nm :: rest =>
    let r := injectStep je store nm
    let rr := injectSteps je r.2 rest
    (r.1 :: rr.1, rr.2)

/-- Workflow._inject_job_params over the workflow steps in order, starting
from a heap holding only the job record default parameters dict (address 0). -/
def injectJobParams (je : JobExec) (steps : List String) :
    List StepExec × Store :=
  injectSteps je [je.paramsDefault] steps

/-- Mutate one parameters dict on the heap (what a later d[key] = v through
one step would do). -/
def storeSetParam (store : Store) (addr : Nat) (key v : String) : Store :=
  store.set addr (dictSet (store.getD addr []) key v)

/-! ### Notifications -/

/-- Outcome of one requests.post call: a response with a status code, or a
requests RequestException. -/
inductive PostOutcome where
  | ok (code : Nat)
  | exn
deriving DecidableEq

/-- The Python runtime error the notification loop can raise. -/
inductive PyError where
  | unboundLocal
deriving DecidableEq

/-- The recipient loop of Workflow._send_notifications (workflow.py lines
882 to 899), threading the response local variable: a post that returns is
assigned to response, and a status code other than 201 is only logged; a
post that raises is caught and logged, after which the code still reads
response.status_code, which raises UnboundLocalError when no earlier post
assigned response. -/
def notifyLoop : List PostOutcome → Option Nat → Except PyError Unit
  | [], _ => Except.ok ()
  | PostOutcome.ok c :: rest, _ => notifyLoop rest (some c)
  | PostOutcome.exn :: rest, resp =>
    match resp with
    | none => Except.error PyError.unboundLocal
    | some c => notifyLoop rest (some c)

/-- Workflow._send_notifications: the loop starts with the response local
variable unbound. -/
def sendNotifications (posts : List PostOutcome) : Except PyError Unit :=
  notifyLoop posts none

/-- The notification branch of Workflow._update_status_db (workflow.py
lines 938 to 941): on a status change with notifications configured it
calls _send_notifications with no exception handler, so any exception
propagates to the caller (and out of Workflow.run). -/
def updateStatusDbNotify (statusChanged hasNotifications : Bool)
    (posts : List PostOutcome) : Except PyError Unit :=
  if statusChanged && hasNotifications then sendNotifications posts
  else Except.ok ()

/-! ## Theorems -/

/-- Writing a run-attempt status leaves the item status unchanged. -/
theorem setRunStatus_status (it : MapItem) (s : Status) :
    (setRunStatus it s).status = it.status := rfl

/-- Writing a run-attempt status leaves the attempt counter unchanged. -/
theorem setRunStatus_attempt (it : MapItem) (s : Status) :
    (setRunStatus it s).attempt = it.attempt := rfl

/-- Writing a run-attempt status preserves the number of run records. -/
theorem setRunStatus_run_length (it : MapItem) (s : Status) :
    (setRunStatus it s).run.length = it.run.length := by
  simp [setRunStatus, setRunEntry]

/-- Claim C4, counterexample: job names are not truncated in every backend
executor.  With step name s and an output name of 58 characters the slurm
executor submits a 65-character jt.jobName unchanged, not the claimed
first-62-characters-plus-two-dots form. -/
theorem claim4_counterexample :
    (slurmJobName 0 "s" (String.mk (List.replicate 58 'a'))).length = 65 ∧
    slurmJobName 0 "s" (String.mk (List.replicate 58 'a')) ≠
      (gfJobName 0 "s" (String.mk (List.replicate 58 'a'))).take 62 ++ ".." := by
  constructor
  · decide
  · decide

/-- Claim C4 (amended): every backend executor builds the job name
gf-(attempt)-(slug step)-(slug output), but only the agave executor
truncates it: a name of at most 64 characters (in particular exactly 64)
passes through unchanged and a longer one becomes its first 62 characters
followed by two dots; the slurm, gridengine and local executors always use
the raw untruncated name. -/
theorem claim4_spec (a : Nat) (sn o : String) :
    slurmJobName a sn o = "gf-" ++ toString a ++ "-" ++ slug sn ++ "-" ++ slug o ∧
    ((gfJobName a sn o).length ≤ 64 → agaveJobName a sn o = gfJobName a sn o) ∧
    (64 < (gfJobName a sn o).length →
      agaveJobName a sn o = (gfJobName a sn o).take 62 ++ "..") := by
  refine ⟨rfl, ?_, ?_⟩
  · intro h
    simp only [agaveJobName]
    rw [if_neg (by omega)]
  · intro h
    simp only [agaveJobName]
    rw [if_pos h]

/-- Witness for claim C4: the 65-character raw name is truncated by the
agave executor to its first 62 characters plus two dots. -/
theorem claim4_witness :
    64 < (gfJobName 0 "s" (String.mk (List.replicate 58 'a'))).length ∧
    agaveJobName 0 "s" (String.mk (List.replicate 58 'a')) =
      (gfJobName 0 "s" (String.mk (List.replicate 58 'a'))).take 62 ++ ".." :=
  ⟨by decide,
   (claim4_spec 0 "s" (String.mk (List.replicate 58 'a'))).2.2 (by decide)⟩

/-- Claim C5: evaluating the notification sender at the failing input.  A
POST that raises a RequestException while the response local variable is
still unbound makes _send_notifications raise UnboundLocalError, which
propagates through the unguarded call in _update_status_db; a non-201
response, by contrast, really is ignored, as is an exception raised after
some earlier POST already assigned response. -/
theorem claim5_spec :
    updateStatusDbNotify true true [PostOutcome.exn] = Except.error PyError.unboundLocal ∧
    sendNotifications [PostOutcome.exn] = Except.error PyError.unboundLocal ∧
    updateStatusDbNotify true true [PostOutcome.ok 500] = Except.ok () ∧
    updateStatusDbNotify true true [PostOutcome.ok 201, PostOutcome.exn] = Except.ok () :=
  ⟨rfl, rfl, rfl, rfl⟩

/-- Claim C6: the DRMAA executors map backend states to engine states as
undetermined to UNKNOWN, queued and held to QUEUED for gridengine but
PENDING for slurm, running and suspended to RUNNING, done to FINISHED and
failed to FAILED; and whenever the polled state maps to a terminal status,
a positive exit status downgrades the result to FAILED (in particular
FINISHED becomes FAILED) while exit status zero leaves FINISHED intact. -/
theorem claim6_spec :
    (slurmStatusMap DrmaaState.undetermined = Status.unknown ∧
     slurmStatusMap DrmaaState.queuedActive = Status.pending ∧
     slurmStatusMap DrmaaState.systemOnHold = Status.pending ∧
     slurmStatusMap DrmaaState.userOnHold = Status.pending ∧
     slurmStatusMap DrmaaState.userSystemOnHold = Status.pending ∧
     slurmStatusMap DrmaaState.running = Status.running ∧
     slurmStatusMap DrmaaState.systemSuspended = Status.running ∧
     slurmStatusMap DrmaaState.userSuspended = Status.running ∧
     slurmStatusMap DrmaaState.done = Status.finished ∧
     slurmStatusMap DrmaaState.failed = Status.failed) ∧
    (geStatusMap DrmaaState.undetermined = Status.unknown ∧
     geStatusMap DrmaaState.queuedActive = Status.queued ∧
     geStatusMap DrmaaState.systemOnHold = Status.queued ∧
     geStatusMap DrmaaState.userOnHold = Status.queued ∧
     geStatusMap DrmaaState.userSystemOnHold = Status.queued ∧
     geStatusMap DrmaaState.running = Status.running ∧
     geStatusMap DrmaaState.systemSuspended = Status.running ∧
     geStatusMap DrmaaState.userSuspended = Status.running ∧
     geStatusMap DrmaaState.done = Status.finished ∧
     geStatusMap DrmaaState.failed = Status.failed) ∧
    (∀ (m : DrmaaState → Status) (ds : DrmaaState) (e : Nat),
      (m ds = Status.finished ∨ m ds = Status.failed) → 0 < e →
      drmaaPolledStatus m (PollOutcome.state ds) e = Status.failed) ∧
    (∀ (m : DrmaaState → Status) (ds : DrmaaState),
      m ds = Status.finished →
      drmaaPolledStatus m (PollOutcome.state ds) 0 = Status.finished) := by
  refine ⟨by decide, by decide, ?_, ?_⟩
  · intro m ds e hterm he
    simp only [drmaaPolledStatus]
    rw [if_pos hterm, if_pos he]
  · intro m ds hfin
    simp only [drmaaPolledStatus]
    rw [if_pos (Or.inl hfin)]
    simp [hfin]

/-- Witness for claim C6: a done state with exit status 2 is downgraded
from FINISHED to FAILED by the slurm status computation. -/
theorem claim6_witness :
    (slurmStatusMap DrmaaState.done = Status.finished ∨
      slurmStatusMap DrmaaState.done = Status.failed) ∧ 0 < 2 ∧
    drmaaPolledStatus slurmStatusMap (PollOutcome.state DrmaaState.done) 2 = Status.failed :=
  ⟨Or.inl rfl, by decide,
   claim6_spec.2.2.1 slurmStatusMap DrmaaState.done 2 (Or.inl rfl) (by decide)⟩

/-- Claim C9, counterexample: LocalStep.retry_failed reports the missing
retry support at error severity through the fatal path, not as the warning
the claim states. -/
theorem claim9_counterexample :
    (localRetryFailed []).2.2 = LogLevel.error ∧ LogLevel.error ≠ LogLevel.warning :=
  ⟨rfl, by decide⟩

/-- Claim C9 (amended): the local executor performs no retry.  Its
check_running_jobs leaves a FAILED map item completely untouched (status
stays FAILED, attempt and run history unchanged), and retry_failed mutates
no map item, increments no attempt, and reports non-support as an error
through the fatal failure path (returning False), not as a warning. -/
theorem claim9_spec (p : LocalPollOutcome) (it : MapItem) (n : Nat)
    (items : List MapItem) (h : it.status = Status.failed) :
    localCheckItem p it n = (it, n) ∧
    localRetryFailed items = (items, false, LogLevel.error) := by
  constructor
  · unfold localCheckItem
    rw [h]
    simp
  · rfl

/-- Witness for claim C9: a concrete FAILED local map item is left exactly
as it is by the polling pass, and retry_failed changes nothing. -/
theorem claim9_witness :
    localCheckItem LocalPollOutcome.stillRunning { status := Status.failed } 3 =
      ({ status := Status.failed }, 3) ∧
    localRetryFailed [] = ([], false, LogLevel.error) :=
  claim9_spec LocalPollOutcome.stillRunning { status := Status.failed } 3 [] rfl

/-- Claim C8: every per-context work URI built by _init_job_uris extends
the configured work URI of that context with the hashed subdirectory
slug(name)-(first 8 of job_id); every requested context yields such an
entry; and the output URI extends the configured output URI with the same
hashed subdirectory, except that no_output_hash selects the unhashed
slug(name). -/
theorem claim8_spec (workUri : List (String × UriCP)) (contexts : List String)
    (name jobId : String) (l : List (String × String)) (p : UriCP)
    (h : initJobWorkUris workUri name jobId contexts = some l) :
    (∀ pr ∈ l, ∃ base, assocGet workUri pr.1 = some base ∧
        pr.2 = appendJobDir base (slug name ++ "-" ++ jobId.take 8)) ∧
    (∀ c ∈ contexts, ∃ base, assocGet workUri c = some base ∧
        (c, appendJobDir base (slug name ++ "-" ++ jobId.take 8)) ∈ l) ∧
    initJobOutputUri p false name jobId = appendJobDir p (slug name ++ "-" ++ jobId.take 8) ∧
    initJobOutputUri p true name jobId = appendJobDir p (slug name) := by
  refine ⟨?_, ?_, rfl, rfl⟩
  · induction contexts generalizing l with
    | nil =>
      simp only [initJobWorkUris, Option.some.injEq] at h
      subst h
      simp
    | cons c rest ih =>
      simp only [initJobWorkUris] at h
      cases hw : assocGet workUri c with
      | none => rw [hw] at h; exact absurd h (by simp)
      | some base =>
        rw [hw] at h
        cases hr : initJobWorkUris workUri name jobId rest with
        | none => rw [hr] at h; exact absurd h (by simp)
        | some l2 =>
          rw [hr] at h
          simp only [Option.some.injEq] at h
          subst h
          intro pr hpr
          rcases List.mem_cons.mp hpr with heq | hmem
          · subst heq
            exact ⟨base, hw, rfl⟩
          · exact ih l2 hr pr hmem
  · induction contexts generalizing l with
    | nil => simp
    | cons c rest ih =>
      simp only [initJobWorkUris] at h
      cases hw : assocGet workUri c with
      | none => rw [hw] at h; exact absurd h (by simp)
      | some base =>
        rw [hw] at h
        cases hr : initJobWorkUris workUri name jobId rest with
        | none => rw [hr] at h; exact absurd h (by simp)
        | some l2 =>
          rw [hr] at h
          simp only [Option.some.injEq] at h
          subst h
          intro c2 hc2
          rcases List.mem_cons.mp hc2 with heq | hmem
          · subst heq
            exact ⟨base, hw, List.mem_cons_self _ _⟩
          · obtain ⟨base2, hb2, hmem2⟩ := ih l2 hr c2 hmem
            exact ⟨base2, hb2, List.mem_cons_of_mem _ hmem2⟩

/-- Witness for claim C8: a concrete job named My Job with job id
0123456789abcdef gets the work subdirectory my-job-01234567. -/
theorem claim8_witness :
    (initJobWorkUris [("local", UriCP.mk "local://h/w" "/w")] "My Job"
        "0123456789abcdef" ["local"]
      = some [("local", "local://h/w/my-job-01234567")]) ∧
    (∀ pr ∈ [(("local" : String), ("local://h/w/my-job-01234567" : String))],
      ∃ base, assocGet [("local", UriCP.mk "local://h/w" "/w")] pr.1 = some base ∧
        pr.2 = appendJobDir base (slug "My Job" ++ "-" ++ ("0123456789abcdef").take 8)) :=
  ⟨by decide,
   (claim8_spec [("local", UriCP.mk "local://h/w" "/w")] ["local"] "My Job"
     "0123456789abcdef" [("local", "local://h/w/my-job-01234567")]
     (UriCP.mk "" "") (by decide)).1⟩

/-- Setting a key overwrites that key. -/
theorem dictGet_dictSet_self (d : PDict) (k v : String) :
    dictGet (dictSet d k v) k = some v := by
  induction d with
  | nil => simp [dictSet, dictGet, assocGet]
  | cons hd tl ih =>
    obtain ⟨k0, v0⟩ := hd
    by_cases hk : k0 = k
    · subst hk
      simp [dictSet, dictGet, assocGet]
    · simp [dictSet, dictGet, assocGet, hk] at ih ⊢
      exact ih

/-- Setting a key leaves every other key unchanged. -/
theorem dictGet_dictSet_ne (d : PDict) (k v k2 : String) (h : k ≠ k2) :
    dictGet (dictSet d k v) k2 = dictGet d k2 := by
  induction d with
  | nil => simp [dictSet, dictGet, assocGet, h]
  | cons hd tl ih =>
    obtain ⟨k0, v0⟩ := hd
    by_cases hk : k0 = k
    · subst hk
      simp [dictSet, dictGet, assocGet, h]
    · simp [dictSet, dictGet, assocGet, hk] at ih ⊢
      split
      · rfl
      · exact ih

/-- Folding assignments over keys not containing the queried key leaves the
query unchanged. -/
theorem dictGet_foldl_not_mem (ov : PDict) (d : PDict) (key : String)
    (h : key ∉ ov.map Prod.fst) :
    dictGet (ov.foldl (fun d kv => dictSet d kv.1 kv.2) d) key = dictGet d key := by
  induction ov generalizing d with
  | nil => rfl
  | cons kv rest ih =>
    simp only [List.map_cons, List.mem_cons, not_or] at h
    rw [List.foldl_cons, ih _ h.2]
    exact dictGet_dictSet_ne _ _ _ _ (Ne.symm h.1)

/-- Folding the override assignments over a dict computes the key-wise
merge: an overridden key yields its override, every other key keeps the
base value. -/
theorem dictGet_foldl_merge (ov : PDict) (d : PDict) (key : String)
    (hnd : (ov.map Prod.fst).Nodup) :
    dictGet (ov.foldl (fun d kv => dictSet d kv.1 kv.2) d) key =
      (match assocGet ov key with
       | some v => some v
       | none => dictGet d key) := by
  induction ov generalizing d with
  | nil => rfl
  | cons kv rest ih =>
    obtain ⟨k0, v0⟩ := kv
    simp only [List.map_cons, List.nodup_cons] at hnd
    rw [List.foldl_cons]
    by_cases hk : k0 = key
    · subst hk
      rw [dictGet_foldl_not_mem rest _ k0 hnd.1, dictGet_dictSet_self]
      simp [assocGet]
    · rw [ih _ hnd.2]
      simp only [assocGet, hk, if_false]
      cases assocGet rest key with
      | some v => rfl
      | none => exact dictGet_dictSet_ne _ _ _ _ hk

/-- The heap after injection is the initial default dict followed by one
fresh dict per step, in step order. -/
theorem injectSteps_store (je : JobExec) (steps : List String) :
    ∀ store, (injectSteps je store steps).2 = store ++ steps.map (stepParamsOf je) := by
  induction steps with
  | nil => intro store; simp [injectSteps]
  | cons nm rest ih =>
    intro store
    simp [injectSteps, injectStep, ih]

/-- The step-execution record of the i-th step: override-or-default
context and method, and the address of the freshly allocated dict. -/
theorem injectSteps_get (je : JobExec) (steps : List String) :
    ∀ store i, i < steps.length →
      (injectSteps je store steps).1.getD i ⟨"", "", 0⟩ =
        ⟨(assocGet je.contextPerStep (steps.getD i "")).getD je.contextDefault,
         (assocGet je.methodPerStep (steps.getD i "")).getD je.methodDefault,
         store.length + i⟩ := by
  induction steps with
  | nil => intro store i hi; simp at hi
  | cons nm rest ih =>
    intro store i hi
    cases i with
    | zero => simp [injectSteps, injectStep]
    | succ j =>
      have hj : j < rest.length := by simpa using hi
      simp only [injectSteps, List.getD_cons_succ]
      rw [ih _ j hj]
      simp only [injectStep, List.length_append, List.length_singleton]
      have : store.length + 1 + j = store.length + (j + 1) := by omega
      rw [this]

/-- A successful association lookup returns one of the stored values. -/
theorem assocGet_mem_snd {α : Type} (l : List (String × α)) (key : String) (v : α)
    (h : assocGet l key = some v) : v ∈ l.map Prod.snd := by
  induction l with
  | nil => simp [assocGet] at h
  | cons hd tl ih =>
    obtain ⟨k0, v0⟩ := hd
    simp only [assocGet] at h
    by_cases hk : k0 = key
    · rw [if_pos hk] at h
      injection h with h
      subst h
      simp
    · rw [if_neg hk] at h
      simp only [List.map_cons, List.mem_cons]
      exact Or.inr (ih h)

/-- Indexing a mapped list below its length applies the function to the
entry. -/
theorem map_getD_of_lt (l : List String) (f : String → PDict) (i : Nat)
    (h : i < l.length) :
    (l.map f).getD i [] = f (l.getD i "") := by
  induction l generalizing i with
  | nil => simp at h
  | cons a tl ih =>
    cases i with
    | zero => simp
    | succ j =>
      simp only [List.map_cons, List.getD_cons_succ]
      exact ih j (by simpa using h)

/-- Updating one list index leaves every other index unchanged. -/
theorem getD_set_ne (l : List PDict) (m n : Nat) (a : PDict) (h : m ≠ n) :
    (l.set m a).getD n [] = l.getD n [] := by
  induction l generalizing m n with
  | nil => simp
  | cons hd tl ih =>
    cases m with
    | zero =>
      cases n with
      | zero => exact absurd rfl h
      | succ j => simp
    | succ m2 =>
      cases n with
      | zero => simp
      | succ j =>
        simp only [List.set_cons_succ, List.getD_cons_succ]
        exact ih m2 j (by omega)

/-- Claim C10: after job-parameter injection, the i-th step carries the
per-step execution context and method override when present and the job
default otherwise; its parameters dict is a fresh heap object (address
i + 1, distinct per step and distinct from the job default dict at address
0) whose content is the job default parameters merged key by key with the
overrides of that step, so overridden keys take the override, keys absent
from the override keep the default, the default dict itself is unchanged,
and mutating one step's dict touches neither another step's dict nor the
default. -/
theorem claim10_spec (je : JobExec) (steps : List String) (i : Nat)
    (hi : i < steps.length)
    (hnd : ∀ ov ∈ je.paramsPerStep.map Prod.snd, (ov.map Prod.fst).Nodup) :
    ((injectJobParams je steps).1.getD i ⟨"", "", 0⟩).context
        = (assocGet je.contextPerStep (steps.getD i "")).getD je.contextDefault ∧
    ((injectJobParams je steps).1.getD i ⟨"", "", 0⟩).method
        = (assocGet je.methodPerStep (steps.getD i "")).getD je.methodDefault ∧
    ((injectJobParams je steps).1.getD i ⟨"", "", 0⟩).paramsAddr = i + 1 ∧
    (∀ key, dictGet ((injectJobParams je steps).2.getD (i + 1) []) key =
      (match assocGet je.paramsPerStep (steps.getD i "") with
       | none => dictGet je.paramsDefault key
       | some ov =>
         match assocGet ov key with
         | some v => some v
         | none => dictGet je.paramsDefault key)) ∧
    (injectJobParams je steps).2.getD 0 [] = je.paramsDefault ∧
    (∀ j key v, j ≠ i →
      (storeSetParam (injectJobParams je steps).2 (i + 1) key v).getD (j + 1) []
        = (injectJobParams je steps).2.getD (j + 1) [] ∧
      (storeSetParam (injectJobParams je steps).2 (i + 1) key v).getD 0 []
        = (injectJobParams je steps).2.getD 0 []) := by
  have hget := injectSteps_get je steps [je.paramsDefault] i hi
  have hstore := injectSteps_store je steps [je.paramsDefault]
  have haddr : (injectJobParams je steps).2.getD (i + 1) []
      = stepParamsOf je (steps.getD i "") := by
    rw [injectJobParams, hstore]
    simp only [List.singleton_append, List.getD_cons_succ]
    exact map_getD_of_lt steps _ i hi
  refine ⟨?_, ?_, ?_, ?_, ?_, ?_⟩
  · rw [injectJobParams, hget]
  · rw [injectJobParams, hget]
  · rw [injectJobParams, hget]
    simp
    omega
  · intro key
    rw [haddr, stepParamsOf]
    cases hov : assocGet je.paramsPerStep (steps.getD i "") with
    | none => rfl
    | some ov =>
      exact dictGet_foldl_merge ov je.paramsDefault key
        (hnd ov (assocGet_mem_snd _ _ _ hov))
  · rw [injectJobParams, hstore]
    simp
  · intro j key v hj
    constructor
    · exact getD_set_ne _ _ _ _ (by omega)
    · exact getD_set_ne _ _ _ _ (by omega)

/-- Witness for claim C10: a two-step workflow where step b overrides the
context and one parameter; the dict of step b lives at the fresh address 2
and the job default dict at address 0 is untouched. -/
theorem claim10_witness :
    (1 < ([("a" : String), "b"] : List String).length) ∧
    ((injectJobParams
        ⟨"local", [("b", "slurm")], "auto", [], [("q", "1"), ("r", "2")],
          [("b", [("q", "9")])]⟩
        ["a", "b"]).1.getD 1 ⟨"", "", 0⟩).paramsAddr = 1 + 1 ∧
    (injectJobParams
        ⟨"local", [("b", "slurm")], "auto", [], [("q", "1"), ("r", "2")],
          [("b", [("q", "9")])]⟩
        ["a", "b"]).2.getD 0 [] = [("q", "1"), ("r", "2")] :=
  ⟨by decide,
   (claim10_spec
     ⟨"local", [("b", "slurm")], "auto", [], [("q", "1"), ("r", "2")],
       [("b", [("q", "9")])]⟩
     ["a", "b"] 1 (by decide) (by decide)).2.2.1,
   (claim10_spec
     ⟨"local", [("b", "slurm")], "auto", [], [("q", "1"), ("r", "2")],
       [("b", [("q", "9")])]⟩
     ["a", "b"] 1 (by decide) (by decide)).2.2.2.2.1⟩

/-- Claim C7, counterexample: the slurm executor ignores the inclusive
flag.  For a map URI whose last segment a.txt matches the glob, with
inclusive true and an empty directory listing, SlurmStep produces no map
item at all, while the local executor produces the item for the URI itself
that the claim requires. -/
theorem claim7_counterexample :
    slurmGetMapUriList true
      [(⟨"local", "h", "/d", "a.txt", "local://h/d/a.txt", "/d/a.txt"⟩, [])] = [] ∧
    localGetMapUriList (fun _ _ => true) "*" true
      [(⟨"local", "h", "/d", "a.txt", "local://h/d/a.txt", "/d/a.txt"⟩, [])] =
      [inclusiveEntry ⟨"local", "h", "/d", "a.txt", "local://h/d/a.txt", "/d/a.txt"⟩] :=
  ⟨rfl, rfl⟩

/-- Claim C7 (amended): for the local and gridengine executors,
_get_map_uri_list with inclusive true prepends one item for the map URI
itself exactly when its last path segment passes the glob filter, in
addition to one item per listed file, and with inclusive false only the
listed contents produce items; the slurm executor ignores the inclusive
flag and always produces only the listed contents. -/
theorem claim7_spec (gm : String → String → Bool) (g : String)
    (uri : ParsedURI) (files : List String) :
    (gm g uri.name = true →
      localGetMapUriList gm g true [(uri, files)] =
        inclusiveEntry uri :: files.map (fileEntry uri)) ∧
    (gm g uri.name = false →
      localGetMapUriList gm g true [(uri, files)] = files.map (fileEntry uri)) ∧
    localGetMapUriList gm g false [(uri, files)] = files.map (fileEntry uri) ∧
    geGetMapUriList gm g true [(uri, files)] =
      localGetMapUriList gm g true [(uri, files)] ∧
    (∀ inc : Bool, slurmGetMapUriList inc [(uri, files)] =
      files.map (fun f => MapUriEntry.mk uri.choppedUri f)) := by
  refine ⟨?_, ?_, ?_, rfl, ?_⟩
  · intro h
    simp [localGetMapUriList, geLocalMapUriPerUri, h]
  · intro h
    simp [localGetMapUriList, geLocalMapUriPerUri, h]
  · simp [localGetMapUriList, geLocalMapUriPerUri]
  · intro inc
    simp [slurmGetMapUriList]

/-- Witness for claim C7: with a glob filter accepting everything, the
local executor includes the map URI itself ahead of the listed file. -/
theorem claim7_witness :
    ((fun _ _ => true) : String → String → Bool) "*" "a.txt" = true ∧
    localGetMapUriList (fun _ _ => true) "*" true
      [(⟨"local", "h", "/d", "a.txt", "local://h/d/a.txt", "/d/a.txt"⟩, ["x.txt"])] =
      inclusiveEntry ⟨"local", "h", "/d", "a.txt", "local://h/d/a.txt", "/d/a.txt"⟩ ::
        (["x.txt"].map (fileEntry ⟨"local", "h", "/d", "a.txt", "local://h/d/a.txt", "/d/a.txt"⟩)) :=
  ⟨rfl,
   (claim7_spec (fun _ _ => true) "*"
     ⟨"local", "h", "/d", "a.txt", "local://h/d/a.txt", "/d/a.txt"⟩ ["x.txt"]).1 rfl⟩

/-- Only PENDING items receive a submitted flag in the throttled run loop. -/
theorem throttledRunGo_pending_flag (rm : Nat → MapItem → Option MapItem) (k : Nat) :
    ∀ (items : List MapItem) (i n : Nat) (pr : MapItem × Bool),
      pr ∈ items.zip (throttledRunGo rm k i n items).2.2 → pr.2 = true →
      pr.1.status = Status.pending := by
  intro items
  induction items with
  | nil =>
    intro i n pr hpr _
    simp [throttledRunGo] at hpr
  | cons it rest ih =>
    intro i n pr hpr htrue
    simp only [throttledRunGo] at hpr
    by_cases hp : it.status = Status.pending
    · rw [if_pos hp] at hpr
      cases hrm : rm i it with
      | none =>
        simp only [hrm] at hpr
        simp only [List.zip_cons_cons, List.mem_cons] at hpr
        rcases hpr with heq | hmem
        · subst heq; exact hp
        · exact ih _ _ pr hmem htrue
      | some it2 =>
        simp only [hrm] at hpr
        by_cases hbr : 0 < k ∧ k ≤ n + 1
        · rw [if_pos hbr] at hpr
          simp only [List.zip_cons_cons, List.mem_cons] at hpr
          rcases hpr with heq | hmem
          · subst heq; exact hp
          · have hzip := List.of_mem_zip hmem
            have hf := List.eq_of_mem_replicate hzip.2
            rw [hf] at htrue
            simp at htrue
        · rw [if_neg hbr] at hpr
          simp only [List.zip_cons_cons, List.mem_cons] at hpr
          rcases hpr with heq | hmem
          · subst heq; exact hp
          · exact ih _ _ pr hmem htrue
    · rw [if_neg hp] at hpr
      simp only [List.zip_cons_cons, List.mem_cons] at hpr
      rcases hpr with heq | hmem
      · subst heq; simp at htrue
      · exact ih _ _ pr hmem htrue

/-- With throttle limit zero the loop submits exactly the PENDING items. -/
theorem throttledRunGo_zero_flags (rm : Nat → MapItem → Option MapItem) :
    ∀ (items : List MapItem) (i n : Nat),
      (throttledRunGo rm 0 i n items).2.2 =
        items.map (fun it => decide (it.status = Status.pending)) := by
  intro items
  induction items with
  | nil => intro i n; simp [throttledRunGo]
  | cons it rest ih =>
    intro i n
    simp only [throttledRunGo]
    by_cases hp : it.status = Status.pending
    · rw [if_pos hp]
      cases hrm : rm i it with
      | none =>
        simp only [hrm, List.map_cons]
        rw [ih]
        simp [hp]
      | some it2 =>
        simp only [hrm]
        rw [if_neg (by simp)]
        simp only [List.map_cons]
        rw [ih]
        simp [hp]
    · rw [if_neg hp]
      simp only [List.map_cons]
      rw [ih]
      simp [hp]

/-- The loop never pushes the counter above the limit when entered below
it. -/
theorem throttledRunGo_counter_le (rm : Nat → MapItem → Option MapItem) (k : Nat)
    (hk : 0 < k) :
    ∀ (items : List MapItem) (i n : Nat), n < k →
      (throttledRunGo rm k i n items).2.1 ≤ k := by
  intro items
  induction items with
  | nil => intro i n hn; simpa [throttledRunGo] using Nat.le_of_lt hn
  | cons it rest ih =>
    intro i n hn
    simp only [throttledRunGo]
    by_cases hp : it.status = Status.pending
    · rw [if_pos hp]
      cases hrm : rm i it with
      | none =>
        simp only [hrm]
        exact ih _ _ hn
      | some it2 =>
        simp only [hrm]
        by_cases hbr : 0 < k ∧ k ≤ n + 1
        · rw [if_pos hbr]
          exact Nat.succ_le_of_lt hn
        · rw [if_neg hbr]
          have hlt : n + 1 < k := by
            rcases Nat.lt_or_ge (n + 1) k with h | h
            · exact h
            · exact absurd ⟨hk, h⟩ hbr
          exact ih _ _ hlt
    · rw [if_neg hp]
      exact ih _ _ hn

/-- The counter never decreases across the loop. -/
theorem throttledRunGo_counter_mono (rm : Nat → MapItem → Option MapItem) (k : Nat) :
    ∀ (items : List MapItem) (i n : Nat),
      n ≤ (throttledRunGo rm k i n items).2.1 := by
  intro items
  induction items with
  | nil => intro i n; simp [throttledRunGo]
  | cons it rest ih =>
    intro i n
    simp only [throttledRunGo]
    by_cases hp : it.status = Status.pending
    · rw [if_pos hp]
      cases hrm : rm i it with
      | none =>
        simp only [hrm]
        exact ih _ _
      | some it2 =>
        simp only [hrm]
        by_cases hbr : 0 < k ∧ k ≤ n + 1
        · rw [if_pos hbr]
          exact Nat.le_succ n
        · rw [if_neg hbr]
          exact Nat.le_trans (Nat.le_succ n) (ih _ _)
    · rw [if_neg hp]
      exact ih _ _

/-- A PENDING item is left unsubmitted only because the counter reached
the limit. -/
theorem throttledRunGo_skip_limit (rm : Nat → MapItem → Option MapItem) (k : Nat) :
    ∀ (items : List MapItem) (i n : Nat) (pr : MapItem × Bool),
      pr ∈ items.zip (throttledRunGo rm k i n items).2.2 →
      pr.1.status = Status.pending → pr.2 = false →
      k ≤ (throttledRunGo rm k i n items).2.1 := by
  intro items
  induction items with
  | nil =>
    intro i n pr hpr _ _
    simp [throttledRunGo] at hpr
  | cons it rest ih =>
    intro i n pr hpr hpend hfalse
    simp only [throttledRunGo] at hpr ⊢
    by_cases hp : it.status = Status.pending
    · rw [if_pos hp] at hpr ⊢
      cases hrm : rm i it with
      | none =>
        simp only [hrm] at hpr ⊢
        simp only [List.zip_cons_cons, List.mem_cons] at hpr
        rcases hpr with heq | hmem
        · subst heq; simp at hfalse
        · exact ih _ _ pr hmem hpend hfalse
      | some it2 =>
        simp only [hrm] at hpr ⊢
        by_cases hbr : 0 < k ∧ k ≤ n + 1
        · rw [if_pos hbr] at hpr ⊢
          exact hbr.2
        · rw [if_neg hbr] at hpr ⊢
          simp only [List.zip_cons_cons, List.mem_cons] at hpr
          rcases hpr with heq | hmem
          · subst heq; simp at hfalse
          · exact ih _ _ pr hmem hpend hfalse
    · rw [if_neg hp] at hpr ⊢
      simp only [List.zip_cons_cons, List.mem_cons] at hpr
      rcases hpr with heq | hmem
      · subst heq; exact absurd hpend hp
      · exact ih _ _ pr hmem hpend hfalse

/-- A fully successful slurm run() call submits every map item. -/
theorem slurmRunGo_flags_all (oracle : Nat → SubmitOutcome) :
    ∀ (items : List MapItem) (i : Nat),
      (slurmRunGo oracle i items).2.2 = true →
      (slurmRunGo oracle i items).2.1 = List.replicate items.length true := by
  intro items
  induction items with
  | nil => intro i _; rfl
  | cons it rest ih =>
    intro i hsucc
    simp only [slurmRunGo] at hsucc ⊢
    cases hrm : slurmRunMap (oracle i) it with
    | none =>
      simp only [hrm] at hsucc
      exact absurd hsucc (by simp)
    | some it2 =>
      simp only [hrm] at hsucc ⊢
      simp only [List.length_cons, List.replicate_succ]
      rw [ih _ hsucc]

/-- Claim C1, counterexample: SlurmStep.run does not submit exactly the
PENDING items.  A map item already FINISHED is submitted again by the slurm
run() call (its submitted flag is true) even though its status is not
PENDING, and the throttle argument is ignored. -/
theorem claim1_counterexample :
    (slurmRun (fun _ => SubmitOutcome.ok 7) 1
      [{ status := Status.finished }]).2.1 = [true] ∧
    ({ status := Status.finished } : MapItem).status ≠ Status.pending :=
  ⟨rfl, by decide⟩

/-- Claim C1 (amended): the local and gridengine run() loops submit only
items that are PENDING at the time of the call; with no throttle
(limit 0) they submit exactly the PENDING items; with a positive limit
already reached they submit nothing; the counter never exceeds
max(num_running, limit); and a PENDING item is skipped only when the
counter has reached the limit.  The slurm run() call instead submits every
map item unconditionally: when it succeeds, every submitted flag is true
regardless of item status and of the throttle limit. -/
theorem claim1_spec :
    (∀ (rm : Nat → MapItem → Option MapItem) (k : Nat) (items : List MapItem)
       (n : Nat) (pr : MapItem × Bool),
       pr ∈ items.zip (throttledRun rm k items n).2.2 → pr.2 = true →
       pr.1.status = Status.pending) ∧
    (∀ (rm : Nat → MapItem → Option MapItem) (items : List MapItem) (n : Nat),
       (throttledRun rm 0 items n).2.2 =
         items.map (fun it => decide (it.status = Status.pending))) ∧
    (∀ (rm : Nat → MapItem → Option MapItem) (k : Nat) (items : List MapItem)
       (n : Nat), 0 < k → k ≤ n →
       throttledRun rm k items n = (items, n, List.replicate items.length false)) ∧
    (∀ (rm : Nat → MapItem → Option MapItem) (k : Nat) (items : List MapItem)
       (n : Nat), 0 < k → (throttledRun rm k items n).2.1 ≤ max n k) ∧
    (∀ (rm : Nat → MapItem → Option MapItem) (k : Nat) (items : List MapItem)
       (n : Nat) (pr : MapItem × Bool), 0 < k →
       pr ∈ items.zip (throttledRun rm k items n).2.2 →
       pr.1.status = Status.pending → pr.2 = false →
       k ≤ (throttledRun rm k items n).2.1) ∧
    (∀ (oracle : Nat → SubmitOutcome) (k : Nat) (items : List MapItem) (n : Nat),
       geRun oracle k items n =
         throttledRun (fun i it => geRunMap (oracle i) it) k items n) ∧
    (∀ (oracle : Nat → SpawnOutcome) (k : Nat) (items : List MapItem) (n : Nat),
       localRun oracle k items n =
         throttledRun (fun i it => localRunMap (oracle i) it) k items n) ∧
    (∀ (oracle : Nat → SubmitOutcome) (tl : Nat) (items : List MapItem),
       (slurmRun oracle tl items).2.2 = true →
       (slurmRun oracle tl items).2.1 = List.replicate items.length true) := by
  refine ⟨?_, ?_, ?_, ?_, ?_, fun _ _ _ _ => rfl, fun _ _ _ _ => rfl, ?_⟩
  · intro rm k items n pr hpr htrue
    unfold throttledRun at hpr
    by_cases hg : 0 < k ∧ k ≤ n
    · rw [if_pos hg] at hpr
      have hzip := List.of_mem_zip hpr
      have hf := List.eq_of_mem_replicate hzip.2
      rw [hf] at htrue
      simp at htrue
    · rw [if_neg hg] at hpr
      exact throttledRunGo_pending_flag rm k items 0 n pr hpr htrue
  · intro rm items n
    unfold throttledRun
    rw [if_neg (by simp)]
    exact throttledRunGo_zero_flags rm items 0 n
  · intro rm k items n hk hn
    unfold throttledRun
    rw [if_pos ⟨hk, hn⟩]
  · intro rm k items n hk
    unfold throttledRun
    by_cases hg : 0 < k ∧ k ≤ n
    · rw [if_pos hg]
      exact Nat.le_max_left n k
    · rw [if_neg hg]
      have hn : n < k := by
        rcases Nat.lt_or_ge n k with h | h
        · exact h
        · exact absurd ⟨hk, h⟩ hg
      exact Nat.le_trans (throttledRunGo_counter_le rm k hk items 0 n hn)
        (Nat.le_max_right n k)
  · intro rm k items n pr hk hpr hpend hfalse
    unfold throttledRun at hpr ⊢
    by_cases hg : 0 < k ∧ k ≤ n
    · rw [if_pos hg] at hpr ⊢
      exact hg.2
    · rw [if_neg hg] at hpr ⊢
      exact throttledRunGo_skip_limit rm k items 0 n pr hpr hpend hfalse
  · intro oracle tl items hsucc
    exact slurmRunGo_flags_all oracle items 0 hsucc

/-- Witness for claim C1: a successful slurm run() call on a single
PENDING item reports one submitted flag. -/
theorem claim1_witness :
    (slurmRun (fun _ => SubmitOutcome.ok 3) 0 [{ status := Status.pending }]).2.2 = true ∧
    (slurmRun (fun _ => SubmitOutcome.ok 3) 0 [{ status := Status.pending }]).2.1 =
      List.replicate 1 true :=
  ⟨rfl, by
    have h := claim1_spec.2.2.2.2.2.2.2 (fun _ => SubmitOutcome.ok 3) 0
      [{ status := Status.pending }] rfl
    simpa using h⟩

/-- A successful _run_map call never changes the attempt counter or the
number of run records, and sets the item status to the submit status on
success and FAILED on a communication exception. -/
theorem drmaaRunMap_some_spec (st : Status) (o : SubmitOutcome) (it it2 : MapItem)
    (h : drmaaRunMap st o it = some it2) :
    it2.attempt = it.attempt ∧ it2.run.length = it.run.length ∧
    (o = SubmitOutcome.commError → it2.status = Status.failed) ∧
    (∀ jobId, o = SubmitOutcome.ok jobId → it2.status = st) := by
  cases o with
  | fatal => simp [drmaaRunMap] at h
  | commError =>
    simp only [drmaaRunMap, Option.some.injEq] at h
    subst h
    refine ⟨rfl, by simp [setRunStatus, setRunEntry], fun _ => rfl, ?_⟩
    intro jobId hj
    cases hj
  | ok jobId =>
    simp only [drmaaRunMap, Option.some.injEq] at h
    subst h
    refine ⟨rfl, by simp [setRunStatus, setRunEntry], ?_, fun _ _ => rfl⟩
    intro hc
    cases hc

/-- retry_failed increments attempt by exactly one and appends exactly one
run record, whatever the resubmission outcome. -/
theorem retryFailedWith_spec (st : Status) (o : SubmitOutcome) (it : MapItem) :
    (retryFailedWith (drmaaRunMap st o) it).1.attempt = it.attempt + 1 ∧
    (retryFailedWith (drmaaRunMap st o) it).1.run.length = it.run.length + 1 := by
  unfold retryFailedWith
  cases hr : drmaaRunMap st o { it with attempt := it.attempt + 1, run := it.run ++ [emptyRunAttempt] } with
  | none =>
    simp only [hr]
    simp
  | some it2 =>
    have hs := drmaaRunMap_some_spec st o _ _ hr
    simp only [hr]
    constructor
    · rw [hs.1]
    · rw [hs.2.1]
      simp

/-- Status of the item after retry_failed, by resubmission outcome. -/
theorem retryFailedWith_status (st : Status) (o : SubmitOutcome) (it : MapItem) :
    (o = SubmitOutcome.fatal →
      (retryFailedWith (drmaaRunMap st o) it).1.status = it.status ∧
      (retryFailedWith (drmaaRunMap st o) it).2 = false) ∧
    (o = SubmitOutcome.commError →
      (retryFailedWith (drmaaRunMap st o) it).1.status = Status.failed ∧
      (retryFailedWith (drmaaRunMap st o) it).2 = true) ∧
    (∀ jobId, o = SubmitOutcome.ok jobId →
      (retryFailedWith (drmaaRunMap st o) it).1.status = st ∧
      (retryFailedWith (drmaaRunMap st o) it).2 = true) := by
  refine ⟨?_, ?_, ?_⟩
  · intro h; subst h; exact ⟨rfl, rfl⟩
  · intro h; subst h; exact ⟨rfl, rfl⟩
  · intro jobId h; subst h; exact ⟨rfl, rfl⟩

/-- The slurm check body in closed form: compute the new status (polled
only for non-terminal items), write the run-attempt status, then retry on
FAILED below the attempt limit. -/
theorem slurmCheckItem_eq (p : PollOutcome) (e : Nat) (sub : SubmitOutcome)
    (it : MapItem) :
    slurmCheckItem p e sub it =
      (let s := if it.status = Status.finished ∨ it.status = Status.failed
                then it.status else drmaaPolledStatus slurmStatusMap p e
       let mid := setRunStatus { it with status := s } s
       if s = Status.failed ∧ it.attempt < 5 then (slurmRetryFailed sub mid).1 else mid) := by
  by_cases hterm : it.status = Status.finished ∨ it.status = Status.failed
  · simp [slurmCheckItem, hterm, setRunStatus_status, setRunStatus_attempt]
  · simp [slurmCheckItem, hterm, setRunStatus_status, setRunStatus_attempt]

/-- slurm retry_failed is the generic retry body at submit status PENDING. -/
theorem slurmRetryFailed_def (sub : SubmitOutcome) (it : MapItem) :
    slurmRetryFailed sub it = retryFailedWith (drmaaRunMap Status.pending sub) it := rfl

/-- gridengine retry_failed is the generic retry body at submit status
QUEUED. -/
theorem geRetryFailed_def (sub : SubmitOutcome) (it : MapItem) :
    geRetryFailed sub it = retryFailedWith (drmaaRunMap Status.queued sub) it := rfl

/-- An already FAILED slurm item below the attempt limit goes straight to
retry after the run-status write. -/
theorem slurmCheckItem_of_failed_lt (p : PollOutcome) (e : Nat)
    (sub : SubmitOutcome) (it : MapItem) (h : it.status = Status.failed)
    (h5 : it.attempt < 5) :
    slurmCheckItem p e sub it = (slurmRetryFailed sub (setRunStatus it Status.failed)).1 := by
  simp [slurmCheckItem, h, h5, setRunStatus_status, setRunStatus_attempt]

/-- An already FAILED slurm item at the attempt limit only gets the
run-status write. -/
theorem slurmCheckItem_of_failed_ge (p : PollOutcome) (e : Nat)
    (sub : SubmitOutcome) (it : MapItem) (h : it.status = Status.failed)
    (h5 : ¬ it.attempt < 5) :
    slurmCheckItem p e sub it = setRunStatus it Status.failed := by
  simp [slurmCheckItem, h, h5, setRunStatus_status, setRunStatus_attempt]

/-- A non-terminal slurm item is polled, then retried exactly when the
polled status is FAILED below the attempt limit. -/
theorem slurmCheckItem_of_poll (p : PollOutcome) (e : Nat)
    (sub : SubmitOutcome) (it : MapItem)
    (h : ¬(it.status = Status.finished ∨ it.status = Status.failed)) :
    slurmCheckItem p e sub it =
      (if drmaaPolledStatus slurmStatusMap p e = Status.failed ∧ it.attempt < 5
       then (slurmRetryFailed sub
         (setRunStatus { it with status := drmaaPolledStatus slurmStatusMap p e }
           (drmaaPolledStatus slurmStatusMap p e))).1
       else setRunStatus { it with status := drmaaPolledStatus slurmStatusMap p e }
         (drmaaPolledStatus slurmStatusMap p e)) := by
  simp [slurmCheckItem, h, setRunStatus_status, setRunStatus_attempt]

/-- Run-record-count of the run-status write on an item rebuilt with a new
status. -/
theorem setRunStatus_rebuild_len (it : MapItem) (s : Status) :
    (setRunStatus { it with status := s } s).run.length = it.run.length := by
  simp [setRunStatus, setRunEntry]

/-- A terminal slurm item that is not FAILED (that is, FINISHED) only gets
the run-status write. -/
theorem slurmCheckItem_of_terminal_nofail (p : PollOutcome) (e : Nat)
    (sub : SubmitOutcome) (it : MapItem)
    (hterm : it.status = Status.finished ∨ it.status = Status.failed)
    (hf : ¬ it.status = Status.failed) :
    slurmCheckItem p e sub it = setRunStatus it it.status := by
  have hfin : it.status = Status.finished := hterm.resolve_right hf
  simp [slurmCheckItem, hfin, setRunStatus_status, setRunStatus_attempt]

/-- Per-item specification of the slurm check pass: the run-history
invariant and the attempt bound are preserved, attempt never decreases, a
FAILED item below the limit is retried with exactly one new run record (and
is resubmitted as PENDING on a successful submission), an item polled into
FAILED below the limit likewise, and a FAILED item at attempt 5 stays
FAILED with no new record. -/
theorem slurmCheckItem_spec (p : PollOutcome) (e : Nat) (sub : SubmitOutcome)
    (it : MapItem) :
    (it.run.length = it.attempt + 1 → it.attempt ≤ 5 →
      (slurmCheckItem p e sub it).run.length = (slurmCheckItem p e sub it).attempt + 1 ∧
      (slurmCheckItem p e sub it).attempt ≤ 5) ∧
    it.attempt ≤ (slurmCheckItem p e sub it).attempt ∧
    (it.status = Status.failed → it.attempt < 5 →
      (slurmCheckItem p e sub it).attempt = it.attempt + 1 ∧
      (slurmCheckItem p e sub it).run.length = it.run.length + 1 ∧
      (∀ jobId, sub = SubmitOutcome.ok jobId →
        (slurmCheckItem p e sub it).status = Status.pending)) ∧
    (¬(it.status = Status.finished ∨ it.status = Status.failed) →
      drmaaPolledStatus slurmStatusMap p e = Status.failed → it.attempt < 5 →
      (slurmCheckItem p e sub it).attempt = it.attempt + 1 ∧
      (slurmCheckItem p e sub it).run.length = it.run.length + 1) ∧
    (it.status = Status.failed → it.attempt = 5 →
      (slurmCheckItem p e sub it).status = Status.failed ∧
      (slurmCheckItem p e sub it).attempt = 5 ∧
      (slurmCheckItem p e sub it).run.length = it.run.length) := by
  by_cases hf : it.status = Status.failed
  · by_cases h5 : it.attempt < 5
    · have heq := slurmCheckItem_of_failed_lt p e sub it hf h5
      have hat : (slurmCheckItem p e sub it).attempt = it.attempt + 1 := by
        rw [heq, slurmRetryFailed_def,
          (retryFailedWith_spec Status.pending sub (setRunStatus it Status.failed)).1,
          setRunStatus_attempt]
      have hlen : (slurmCheckItem p e sub it).run.length = it.run.length + 1 := by
        rw [heq, slurmRetryFailed_def,
          (retryFailedWith_spec Status.pending sub (setRunStatus it Status.failed)).2,
          setRunStatus_run_length]
      refine ⟨?_, ?_, ?_, ?_, ?_⟩
      · intro hw _
        exact ⟨by rw [hlen, hat, hw], by rw [hat]; omega⟩
      · rw [hat]; omega
      · intro _ _
        refine ⟨hat, hlen, ?_⟩
        intro jobId hj
        rw [heq, slurmRetryFailed_def, hj]
        exact ((retryFailedWith_status Status.pending (SubmitOutcome.ok jobId) _).2.2
          jobId rfl).1
      · intro hnt _ _
        exact absurd (Or.inr hf) hnt
      · intro _ h5eq
        omega
    · have heq := slurmCheckItem_of_failed_ge p e sub it hf h5
      refine ⟨?_, ?_, ?_, ?_, ?_⟩
      · intro hw ha
        rw [heq, setRunStatus_run_length, setRunStatus_attempt]
        exact ⟨hw, ha⟩
      · rw [heq, setRunStatus_attempt]
      · intro _ h5c
        exact absurd h5c h5
      · intro hnt _ _
        exact absurd (Or.inr hf) hnt
      · intro _ h5eq
        rw [heq]
        exact ⟨by rw [setRunStatus_status]; exact hf,
          by rw [setRunStatus_attempt]; exact h5eq,
          setRunStatus_run_length it _⟩
  · by_cases hterm : it.status = Status.finished ∨ it.status = Status.failed
    · have heq := slurmCheckItem_of_terminal_nofail p e sub it hterm hf
      refine ⟨?_, ?_, ?_, ?_, ?_⟩
      · intro hw ha
        rw [heq, setRunStatus_run_length, setRunStatus_attempt]
        exact ⟨hw, ha⟩
      · rw [heq, setRunStatus_attempt]
      · intro hfc _
        exact absurd hfc hf
      · intro hnt _ _
        exact absurd hterm hnt
      · intro hfc _
        exact absurd hfc hf
    · have heq := slurmCheckItem_of_poll p e sub it hterm
      by_cases hc : drmaaPolledStatus slurmStatusMap p e = Status.failed ∧ it.attempt < 5
      · rw [if_pos hc] at heq
        have hat : (slurmCheckItem p e sub it).attempt = it.attempt + 1 := by
          rw [heq, slurmRetryFailed_def,
            (retryFailedWith_spec Status.pending sub _).1, setRunStatus_attempt]
        have hlen : (slurmCheckItem p e sub it).run.length = it.run.length + 1 := by
          rw [heq, slurmRetryFailed_def,
            (retryFailedWith_spec Status.pending sub _).2, setRunStatus_rebuild_len]
        refine ⟨?_, ?_, ?_, ?_, ?_⟩
        · intro hw _
          exact ⟨by rw [hlen, hat, hw], by rw [hat]; omega⟩
        · rw [hat]; omega
        · intro hfc _
          exact absurd hfc hf
        · intro _ _ _
          exact ⟨hat, hlen⟩
        · intro hfc _
          exact absurd hfc hf
      · rw [if_neg hc] at heq
        refine ⟨?_, ?_, ?_, ?_, ?_⟩
        · intro hw ha
          rw [heq, setRunStatus_rebuild_len, setRunStatus_attempt]
          exact ⟨hw, ha⟩
        · rw [heq, setRunStatus_attempt]
        · intro hfc _
          exact absurd hfc hf
        · intro _ hpf h5
          exact absurd ⟨hpf, h5⟩ hc
        · intro hfc _
          exact absurd hfc hf

/-- A FAILED gridengine item below the attempt limit with a free throttle
slot is retried; num_running grows only when retry_failed succeeds. -/
theorem geCheckItem_of_failed_gate (p : PollOutcome) (e : Nat) (sub : SubmitOutcome)
    (k : Nat) (it : MapItem) (n : Nat) (hf : it.status = Status.failed)
    (h5 : it.attempt < 5) (hgate : k = 0 ∨ n < k) :
    geCheckItem p e sub k it n =
      ((geRetryFailed sub (setRunStatus it Status.failed)).1,
       if (geRetryFailed sub (setRunStatus it Status.failed)).2 then n + 1 else n) := by
  rcases hgate with hk0 | hnk
  · simp [geCheckItem, hf, h5, hk0, setRunStatus_status, setRunStatus_attempt]
  · simp [geCheckItem, hf, h5, hnk, setRunStatus_status, setRunStatus_attempt]

/-- A FAILED gridengine item with the throttle gate closed is not retried:
only the run-status write happens and the counter is unchanged. -/
theorem geCheckItem_of_failed_nogate (p : PollOutcome) (e : Nat) (sub : SubmitOutcome)
    (k : Nat) (it : MapItem) (n : Nat) (hf : it.status = Status.failed)
    (hgate : ¬(k = 0 ∨ n < k)) :
    geCheckItem p e sub k it n = (setRunStatus it Status.failed, n) := by
  simp [geCheckItem, hf, hgate, setRunStatus_status, setRunStatus_attempt]

/-- A FAILED gridengine item at the attempt limit is not retried. -/
theorem geCheckItem_of_failed_ge (p : PollOutcome) (e : Nat) (sub : SubmitOutcome)
    (k : Nat) (it : MapItem) (n : Nat) (hf : it.status = Status.failed)
    (h5 : ¬ it.attempt < 5) :
    geCheckItem p e sub k it n = (setRunStatus it Status.failed, n) := by
  simp [geCheckItem, hf, h5, setRunStatus_status, setRunStatus_attempt]

/-- A FINISHED gridengine item is skipped (run-status write only). -/
theorem geCheckItem_of_finished (p : PollOutcome) (e : Nat) (sub : SubmitOutcome)
    (k : Nat) (it : MapItem) (n : Nat) (hfin : it.status = Status.finished) :
    geCheckItem p e sub k it n = (setRunStatus it Status.finished, n) := by
  simp [geCheckItem, hfin, setRunStatus_status, setRunStatus_attempt]

/-- A PENDING gridengine item is skipped (run-status write only). -/
theorem geCheckItem_of_pending (p : PollOutcome) (e : Nat) (sub : SubmitOutcome)
    (k : Nat) (it : MapItem) (n : Nat) (hpend : it.status = Status.pending) :
    geCheckItem p e sub k it n = (setRunStatus it Status.pending, n) := by
  simp [geCheckItem, hpend, setRunStatus_status, setRunStatus_attempt]

/-- Polling a non-terminal gridengine item into a non-terminal status
leaves the counter alone and triggers no retry. -/
theorem geCheckItem_of_poll_nonterm (p : PollOutcome) (e : Nat) (sub : SubmitOutcome)
    (k : Nat) (it : MapItem) (n : Nat)
    (h : ¬(it.status = Status.finished ∨ it.status = Status.failed ∨
      it.status = Status.pending))
    (hs : ¬(drmaaPolledStatus geStatusMap p e = Status.finished ∨
      drmaaPolledStatus geStatusMap p e = Status.failed)) :
    geCheckItem p e sub k it n =
      (setRunStatus { it with status := drmaaPolledStatus geStatusMap p e }
        (drmaaPolledStatus geStatusMap p e), n) := by
  have hsf : ¬ drmaaPolledStatus geStatusMap p e = Status.failed :=
    fun hh => hs (Or.inr hh)
  have hsfin : ¬ drmaaPolledStatus geStatusMap p e = Status.finished :=
    fun hh => hs (Or.inl hh)
  simp [geCheckItem, h, hsfin, hsf, setRunStatus_status, setRunStatus_attempt]

/-- Polling a non-terminal gridengine item into FINISHED decrements the
counter and triggers no retry. -/
theorem geCheckItem_of_poll_finished (p : PollOutcome) (e : Nat) (sub : SubmitOutcome)
    (k : Nat) (it : MapItem) (n : Nat)
    (h : ¬(it.status = Status.finished ∨ it.status = Status.failed ∨
      it.status = Status.pending))
    (hfin : drmaaPolledStatus geStatusMap p e = Status.finished) :
    geCheckItem p e sub k it n =
      (setRunStatus { it with status := Status.finished } Status.finished, n - 1) := by
  simp [geCheckItem, h, hfin, setRunStatus_status, setRunStatus_attempt]

/-- Polling a non-terminal gridengine item into FAILED below the limit with
a free slot (after the decrement) retries it. -/
theorem geCheckItem_of_poll_failed_retry (p : PollOutcome) (e : Nat)
    (sub : SubmitOutcome) (k : Nat) (it : MapItem) (n : Nat)
    (h : ¬(it.status = Status.finished ∨ it.status = Status.failed ∨
      it.status = Status.pending))
    (hsf : drmaaPolledStatus geStatusMap p e = Status.failed)
    (h5 : it.attempt < 5) (hgate : k = 0 ∨ n - 1 < k) :
    geCheckItem p e sub k it n =
      ((geRetryFailed sub
          (setRunStatus { it with status := Status.failed } Status.failed)).1,
       if (geRetryFailed sub
          (setRunStatus { it with status := Status.failed } Status.failed)).2
       then (n - 1) + 1 else n - 1) := by
  rcases hgate with hk0 | hnk
  · simp [geCheckItem, h, hsf, h5, hk0, setRunStatus_status, setRunStatus_attempt]
  · simp [geCheckItem, h, hsf, h5, hnk, setRunStatus_status, setRunStatus_attempt]

/-- Polling a non-terminal gridengine item into FAILED with no retry
admitted (attempt limit or throttle) decrements the counter only. -/
theorem geCheckItem_of_poll_failed_noretry (p : PollOutcome) (e : Nat)
    (sub : SubmitOutcome) (k : Nat) (it : MapItem) (n : Nat)
    (h : ¬(it.status = Status.finished ∨ it.status = Status.failed ∨
      it.status = Status.pending))
    (hsf : drmaaPolledStatus geStatusMap p e = Status.failed)
    (hno : ¬(it.attempt < 5 ∧ (k = 0 ∨ n - 1 < k))) :
    geCheckItem p e sub k it n =
      (setRunStatus { it with status := Status.failed } Status.failed, n - 1) := by
  simp [geCheckItem, h, hsf, hno, setRunStatus_status, setRunStatus_attempt]

/-- Statuses outside the gridengine skip set are in flight. -/
theorem isInFlight_of_not_skip (s : Status)
    (h : ¬(s = Status.finished ∨ s = Status.failed ∨ s = Status.pending)) :
    isInFlight s = true := by
  cases s <;> simp_all [isInFlight]

/-- Per-item specification of the gridengine check pass: the run-history
invariant and attempt bound are preserved, attempt never decreases, a
FAILED item below the limit is retried exactly when the throttle admits it
(one new run record), a FAILED item facing a full throttle is left
untouched with the counter unchanged, and a FAILED item at attempt 5 stays
FAILED with no new record. -/
theorem geCheckItem_spec (p : PollOutcome) (e : Nat) (sub : SubmitOutcome)
    (k : Nat) (it : MapItem) (n : Nat) :
    (it.run.length = it.attempt + 1 → it.attempt ≤ 5 →
      (geCheckItem p e sub k it n).1.run.length = (geCheckItem p e sub k it n).1.attempt + 1 ∧
      (geCheckItem p e sub k it n).1.attempt ≤ 5) ∧
    it.attempt ≤ (geCheckItem p e sub k it n).1.attempt ∧
    (it.status = Status.failed → it.attempt < 5 → (k = 0 ∨ n < k) →
      (geCheckItem p e sub k it n).1.attempt = it.attempt + 1 ∧
      (geCheckItem p e sub k it n).1.run.length = it.run.length + 1) ∧
    (it.status = Status.failed → 0 < k → k ≤ n →
      (geCheckItem p e sub k it n).1 = setRunStatus it Status.failed ∧
      (geCheckItem p e sub k it n).2 = n) ∧
    (it.status = Status.failed → it.attempt = 5 →
      (geCheckItem p e sub k it n).1.status = Status.failed ∧
      (geCheckItem p e sub k it n).1.attempt = 5 ∧
      (geCheckItem p e sub k it n).1.run.length = it.run.length) := by
  by_cases hf : it.status = Status.failed
  · by_cases h5 : it.attempt < 5
    · by_cases hgate : k = 0 ∨ n < k
      · have heq := geCheckItem_of_failed_gate p e sub k it n hf h5 hgate
        have hat : (geCheckItem p e sub k it n).1.attempt = it.attempt + 1 := by
          rw [heq]
          show (geRetryFailed sub (setRunStatus it Status.failed)).1.attempt = it.attempt + 1
          rw [geRetryFailed_def, (retryFailedWith_spec Status.queued sub _).1,
            setRunStatus_attempt]
        have hlen : (geCheckItem p e sub k it n).1.run.length = it.run.length + 1 := by
          rw [heq]
          show (geRetryFailed sub (setRunStatus it Status.failed)).1.run.length
            = it.run.length + 1
          rw [geRetryFailed_def, (retryFailedWith_spec Status.queued sub _).2,
            setRunStatus_run_length]
        refine ⟨?_, ?_, ?_, ?_, ?_⟩
        · intro hw _
          exact ⟨by rw [hlen, hat, hw], by rw [hat]; omega⟩
        · rw [hat]; omega
        · intro _ _ _
          exact ⟨hat, hlen⟩
        · intro _ hk hkn
          exfalso
          omega
        · intro _ h5eq
          omega
      · have heq := geCheckItem_of_failed_nogate p e sub k it n hf hgate
        refine ⟨?_, ?_, ?_, ?_, ?_⟩
        · intro hw ha
          rw [heq]
          exact ⟨by rw [setRunStatus_run_length, setRunStatus_attempt, hw],
            by rw [setRunStatus_attempt]; exact ha⟩
        · rw [heq, setRunStatus_attempt]
        · intro _ _ hg
          exact absurd hg hgate
        · intro _ _ _
          rw [heq]
          exact ⟨rfl, rfl⟩
        · intro _ h5eq
          omega
    · have heq := geCheckItem_of_failed_ge p e sub k it n hf h5
      refine ⟨?_, ?_, ?_, ?_, ?_⟩
      · intro hw ha
        rw [heq]
        exact ⟨by rw [setRunStatus_run_length, setRunStatus_attempt, hw],
          by rw [setRunStatus_attempt]; exact ha⟩
      · rw [heq, setRunStatus_attempt]
      · intro _ h5c _
        exact absurd h5c h5
      · intro _ _ _
        rw [heq]
        exact ⟨rfl, rfl⟩
      · intro _ h5eq
        rw [heq]
        exact ⟨by rw [setRunStatus_status]; exact hf,
          by rw [setRunStatus_attempt]; exact h5eq,
          setRunStatus_run_length it _⟩
  · by_cases hsk : it.status = Status.finished ∨ it.status = Status.pending
    · have heq : geCheckItem p e sub k it n = (setRunStatus it it.status, n) := by
        rcases hsk with hfin | hpend
        · rw [geCheckItem_of_finished p e sub k it n hfin, hfin]
        · rw [geCheckItem_of_pending p e sub k it n hpend, hpend]
      refine ⟨?_, ?_, ?_, ?_, ?_⟩
      · intro hw ha
        rw [heq]
        exact ⟨by rw [setRunStatus_run_length, setRunStatus_attempt, hw],
          by rw [setRunStatus_attempt]; exact ha⟩
      · rw [heq, setRunStatus_attempt]
      · intro hfc _ _
        exact absurd hfc hf
      · intro hfc _ _
        exact absurd hfc hf
      · intro hfc _
        exact absurd hfc hf
    · have hnot : ¬(it.status = Status.finished ∨ it.status = Status.failed ∨
          it.status = Status.pending) := by
        intro hor
        rcases hor with h1 | h2 | h3
        · exact hsk (Or.inl h1)
        · exact hf h2
        · exact hsk (Or.inr h3)
      by_cases hsf : drmaaPolledStatus geStatusMap p e = Status.failed
      · by_cases hc : it.attempt < 5 ∧ (k = 0 ∨ n - 1 < k)
        · have heq := geCheckItem_of_poll_failed_retry p e sub k it n hnot hsf hc.1 hc.2
          have hat : (geCheckItem p e sub k it n).1.attempt = it.attempt + 1 := by
            rw [heq]
            show (geRetryFailed sub
              (setRunStatus { it with status := Status.failed } Status.failed)).1.attempt
              = it.attempt + 1
            rw [geRetryFailed_def, (retryFailedWith_spec Status.queued sub _).1,
              setRunStatus_attempt]
          have hlen : (geCheckItem p e sub k it n).1.run.length = it.run.length + 1 := by
            rw [heq]
            show (geRetryFailed sub
              (setRunStatus { it with status := Status.failed } Status.failed)).1.run.length
              = it.run.length + 1
            rw [geRetryFailed_def, (retryFailedWith_spec Status.queued sub _).2,
              setRunStatus_rebuild_len]
          refine ⟨?_, ?_, ?_, ?_, ?_⟩
          · intro hw _
            exact ⟨by rw [hlen, hat, hw], by rw [hat]; have := hc.1; omega⟩
          · rw [hat]; omega
          · intro hfc _ _
            exact absurd hfc hf
          · intro hfc _ _
            exact absurd hfc hf
          · intro hfc _
            exact absurd hfc hf
        · have heq := geCheckItem_of_poll_failed_noretry p e sub k it n hnot hsf hc
          refine ⟨?_, ?_, ?_, ?_, ?_⟩
          · intro hw ha
            rw [heq]
            exact ⟨by rw [setRunStatus_rebuild_len, setRunStatus_attempt, hw],
              by rw [setRunStatus_attempt]; exact ha⟩
          · rw [heq, setRunStatus_attempt]
          · intro hfc _ _
            exact absurd hfc hf
          · intro hfc _ _
            exact absurd hfc hf
          · intro hfc _
            exact absurd hfc hf
      · have heq : ∃ m, geCheckItem p e sub k it n =
            (setRunStatus { it with status := drmaaPolledStatus geStatusMap p e }
              (drmaaPolledStatus geStatusMap p e), m) := by
          by_cases hsfin : drmaaPolledStatus geStatusMap p e = Status.finished
          · refine ⟨n - 1, ?_⟩
            rw [geCheckItem_of_poll_finished p e sub k it n hnot hsfin, hsfin]
          · refine ⟨n, ?_⟩
            rw [geCheckItem_of_poll_nonterm p e sub k it n hnot ?_]
            intro hor
            rcases hor with h1 | h2
            · exact hsfin h1
            · exact hsf h2
        obtain ⟨m, heq⟩ := heq
        refine ⟨?_, ?_, ?_, ?_, ?_⟩
        · intro hw ha
          rw [heq]
          exact ⟨by rw [setRunStatus_rebuild_len, setRunStatus_attempt, hw],
            by rw [setRunStatus_attempt]; exact ha⟩
        · rw [heq, setRunStatus_attempt]
        · intro hfc _ _
          exact absurd hfc hf
        · intro hfc _ _
          exact absurd hfc hf
        · intro hfc _
          exact absurd hfc hf

/-- Counter accounting of one gridengine check iteration: the in-flight
indicator of the item can grow only as much as num_running does (so the
counter stays an upper bound of the in-flight count), and the counter never
exceeds a positive throttle limit it started below or at. -/
theorem geCheckItem_flight (p : PollOutcome) (e : Nat) (sub : SubmitOutcome)
    (k : Nat) (it : MapItem) (n : Nat)
    (hn : (if isInFlight it.status then 1 else 0) ≤ n) (hk : 0 < k → n ≤ k) :
    ((if isInFlight (geCheckItem p e sub k it n).1.status then 1 else 0) + n ≤
      (if isInFlight it.status then 1 else 0) + (geCheckItem p e sub k it n).2) ∧
    (0 < k → (geCheckItem p e sub k it n).2 ≤ k) := by
  by_cases hf : it.status = Status.failed
  · by_cases h5 : it.attempt < 5
    · by_cases hgate : k = 0 ∨ n < k
      · have heq := geCheckItem_of_failed_gate p e sub k it n hf h5 hgate
        cases sub with
        | ok jobId =>
          have h1 : (geRetryFailed (SubmitOutcome.ok jobId)
              (setRunStatus it Status.failed)).1.status = Status.queued := by
            rw [geRetryFailed_def]
            exact ((retryFailedWith_status Status.queued (SubmitOutcome.ok jobId) _).2.2
              jobId rfl).1
          have h2 : (geRetryFailed (SubmitOutcome.ok jobId)
              (setRunStatus it Status.failed)).2 = true := by
            rw [geRetryFailed_def]
            exact ((retryFailedWith_status Status.queued (SubmitOutcome.ok jobId) _).2.2
              jobId rfl).2
          rw [heq]
          simp only [h1, h2, if_true]
          constructor
          · simp [isInFlight, hf]
            omega
          · intro hkpos
            have := hk hkpos
            omega
        | commError =>
          have h1 : (geRetryFailed SubmitOutcome.commError
              (setRunStatus it Status.failed)).1.status = Status.failed := by
            rw [geRetryFailed_def]
            exact ((retryFailedWith_status Status.queued SubmitOutcome.commError _).2.1
              rfl).1
          have h2 : (geRetryFailed SubmitOutcome.commError
              (setRunStatus it Status.failed)).2 = true := by
            rw [geRetryFailed_def]
            exact ((retryFailedWith_status Status.queued SubmitOutcome.commError _).2.1
              rfl).2
          rw [heq]
          simp only [h1, h2, if_true]
          constructor
          · simp [isInFlight, hf]
          · intro hkpos
            have := hk hkpos
            omega
        | fatal =>
          have h1 : (geRetryFailed SubmitOutcome.fatal
              (setRunStatus it Status.failed)).1.status = Status.failed := by
            rw [geRetryFailed_def]
            rw [((retryFailedWith_status Status.queued SubmitOutcome.fatal _).1 rfl).1]
            exact setRunStatus_status it Status.failed |>.trans hf
          have h2 : (geRetryFailed SubmitOutcome.fatal
              (setRunStatus it Status.failed)).2 = false := by
            rw [geRetryFailed_def]
            exact ((retryFailedWith_status Status.queued SubmitOutcome.fatal _).1 rfl).2
          rw [heq]
          simp only [h1, h2, Bool.false_eq_true, if_false]
          constructor
          · simp [isInFlight, hf]
          · intro hkpos
            exact hk hkpos
      · have heq := geCheckItem_of_failed_nogate p e sub k it n hf hgate
        rw [heq]
        constructor
        · simp [setRunStatus_status, isInFlight, hf]
        · intro hkpos
          exact hk hkpos
    · have heq := geCheckItem_of_failed_ge p e sub k it n hf h5
      rw [heq]
      constructor
      · simp [setRunStatus_status, isInFlight, hf]
      · intro hkpos
        exact hk hkpos
  · by_cases hsk : it.status = Status.finished ∨ it.status = Status.pending
    · have heq : geCheckItem p e sub k it n = (setRunStatus it it.status, n) := by
        rcases hsk with hfin | hpend
        · rw [geCheckItem_of_finished p e sub k it n hfin, hfin]
        · rw [geCheckItem_of_pending p e sub k it n hpend, hpend]
      rw [heq]
      constructor
      · simp [setRunStatus_status]
      · intro hkpos
        exact hk hkpos
    · have hnot : ¬(it.status = Status.finished ∨ it.status = Status.failed ∨
          it.status = Status.pending) := by
        intro hor
        rcases hor with h1 | h2 | h3
        · exact hsk (Or.inl h1)
        · exact hf h2
        · exact hsk (Or.inr h3)
      have hfl1 : isInFlight it.status = true := isInFlight_of_not_skip _ hnot
      have hn1 : 1 ≤ n := by
        rw [hfl1] at hn
        simpa using hn
      by_cases hsf : drmaaPolledStatus geStatusMap p e = Status.failed
      · by_cases hc : it.attempt < 5 ∧ (k = 0 ∨ n - 1 < k)
        · have heq := geCheckItem_of_poll_failed_retry p e sub k it n hnot hsf hc.1 hc.2
          cases sub with
          | ok jobId =>
            have h1 : (geRetryFailed (SubmitOutcome.ok jobId)
                (setRunStatus { it with status := Status.failed } Status.failed)).1.status
                = Status.queued := by
              rw [geRetryFailed_def]
              exact ((retryFailedWith_status Status.queued (SubmitOutcome.ok jobId) _).2.2
                jobId rfl).1
            have h2 : (geRetryFailed (SubmitOutcome.ok jobId)
                (setRunStatus { it with status := Status.failed } Status.failed)).2
                = true := by
              rw [geRetryFailed_def]
              exact ((retryFailedWith_status Status.queued (SubmitOutcome.ok jobId) _).2.2
                jobId rfl).2
            rw [heq]
            simp only [h1, h2, if_true]
            constructor
            · rw [hfl1]
              simp [isInFlight]
              omega
            · intro hkpos
              have := hk hkpos
              have := hc.2
              omega
          | commError =>
            have h1 : (geRetryFailed SubmitOutcome.commError
                (setRunStatus { it with status := Status.failed } Status.failed)).1.status
                = Status.failed := by
              rw [geRetryFailed_def]
              exact ((retryFailedWith_status Status.queued SubmitOutcome.commError _).2.1
                rfl).1
            have h2 : (geRetryFailed SubmitOutcome.commError
                (setRunStatus { it with status := Status.failed } Status.failed)).2
                = true := by
              rw [geRetryFailed_def]
              exact ((retryFailedWith_status Status.queued SubmitOutcome.commError _).2.1
                rfl).2
            rw [heq]
            simp only [h1, h2, if_true]
            constructor
            · rw [hfl1]
              simp [isInFlight]
              omega
            · intro hkpos
              have := hk hkpos
              have := hc.2
              omega
          | fatal =>
            have h1 : (geRetryFailed SubmitOutcome.fatal
                (setRunStatus { it with status := Status.failed } Status.failed)).1.status
                = Status.failed := by
              rw [geRetryFailed_def]
              rw [((retryFailedWith_status Status.queued SubmitOutcome.fatal _).1 rfl).1]
              rfl
            have h2 : (geRetryFailed SubmitOutcome.fatal
                (setRunStatus { it with status := Status.failed } Status.failed)).2
                = false := by
              rw [geRetryFailed_def]
              exact ((retryFailedWith_status Status.queued SubmitOutcome.fatal _).1 rfl).2
            rw [heq]
            simp only [h1, h2, Bool.false_eq_true, if_false]
            constructor
            · rw [hfl1]
              simp [isInFlight]
              omega
            · intro hkpos
              have := hk hkpos
              omega
        · have heq := geCheckItem_of_poll_failed_noretry p e sub k it n hnot hsf hc
          rw [heq]
          constructor
          · simp only [setRunStatus_status]
            rw [hfl1]
            simp [isInFlight]
            omega
          · intro hkpos
            have := hk hkpos
            omega
      · by_cases hsfin : drmaaPolledStatus geStatusMap p e = Status.finished
        · have heq := geCheckItem_of_poll_finished p e sub k it n hnot hsfin
          rw [heq]
          constructor
          · simp only [setRunStatus_status]
            rw [hfl1]
            simp [isInFlight]
            omega
          · intro hkpos
            have := hk hkpos
            omega
        · have heq := geCheckItem_of_poll_nonterm p e sub k it n hnot ?_
          · rw [heq]
            constructor
            · have hb : (if isInFlight (drmaaPolledStatus geStatusMap p e) then 1 else 0)
                  ≤ 1 := by
                split <;> omega
              simp only [setRunStatus_status]
              rw [hfl1]
              simp only [if_true]
              omega
            · intro hkpos
              exact hk hkpos
          · intro hor
            rcases hor with h1 | h2
            · exact hsfin h1
            · exact hsf h2

/-- In-flight count of a cons cell. -/
theorem inFlightCount_cons (it : MapItem) (l : List MapItem) :
    inFlightCount (it :: l) =
      (if isInFlight it.status then 1 else 0) + inFlightCount l := by
  simp only [inFlightCount, List.filter_cons]
  split
  · simp [Nat.add_comm]
  · simp

/-- All-PENDING lists have nothing in flight. -/
theorem inFlightCount_pending (items : List MapItem)
    (h : ∀ it ∈ items, it.status = Status.pending) : inFlightCount items = 0 := by
  induction items with
  | nil => rfl
  | cons it rest ih =>
    rw [inFlightCount_cons, h it (List.mem_cons_self _ _)]
    have := ih (fun x hx => h x (List.mem_cons_of_mem _ hx))
    simp [isInFlight, this]

/-- Counter accounting of the submission loop: the in-flight count never
outgrows num_running. -/
theorem throttledRunGo_flight (rm : Nat → MapItem → Option MapItem) (k : Nat) :
    ∀ (items : List MapItem) (i n c : Nat),
      c + inFlightCount items ≤ n →
      c + inFlightCount (throttledRunGo rm k i n items).1 ≤
        (throttledRunGo rm k i n items).2.1 := by
  intro items
  induction items with
  | nil =>
    intro i n c hc
    simpa [throttledRunGo, inFlightCount] using hc
  | cons it rest ih =>
    intro i n c hc
    rw [inFlightCount_cons] at hc
    simp only [throttledRunGo]
    by_cases hp : it.status = Status.pending
    · have hfl0 : (if isInFlight it.status then 1 else 0) = 0 := by
        rw [hp]; rfl
      rw [if_pos hp]
      cases hrm : rm i it with
      | none =>
        simp only [hrm]
        show c + inFlightCount
          (setRunStatus { it with status := Status.failed } Status.failed ::
            (throttledRunGo rm k (i + 1) n rest).1) ≤
          (throttledRunGo rm k (i + 1) n rest).2.1
        rw [inFlightCount_cons]
        have hstep := ih (i + 1) n c (by omega)
        have hflf : (if isInFlight (setRunStatus { it with status := Status.failed }
            Status.failed).status then 1 else 0) = 0 := by
          rw [setRunStatus_status]
          rfl
        omega
      | some it2 =>
        simp only [hrm]
        have hb2 : (if isInFlight it2.status then 1 else 0) ≤ 1 := by
          split <;> omega
        by_cases hbr : 0 < k ∧ k ≤ n + 1
        · rw [if_pos hbr]
          show c + inFlightCount (it2 :: rest) ≤ n + 1
          rw [inFlightCount_cons]
          omega
        · rw [if_neg hbr]
          show c + inFlightCount (it2 :: (throttledRunGo rm k (i + 1) (n + 1) rest).1) ≤
            (throttledRunGo rm k (i + 1) (n + 1) rest).2.1
          rw [inFlightCount_cons]
          have hstep := ih (i + 1) (n + 1)
            (c + (if isInFlight it2.status then 1 else 0)) (by omega)
          omega
    · rw [if_neg hp]
      show c + inFlightCount (it :: (throttledRunGo rm k i n rest).1) ≤
        (throttledRunGo rm k i n rest).2.1
      rw [inFlightCount_cons]
      have hstep := ih i n (c + (if isInFlight it.status then 1 else 0)) (by omega)
      omega

/-- run() preserves the throttle invariant: the in-flight count stays below
num_running, and num_running stays below a positive limit it started at or
below. -/
theorem throttledRun_flight (rm : Nat → MapItem → Option MapItem) (k : Nat)
    (items : List MapItem) (n : Nat) (hc : inFlightCount items ≤ n)
    (hk : 0 < k → n ≤ k) :
    inFlightCount (throttledRun rm k items n).1 ≤ (throttledRun rm k items n).2.1 ∧
    (0 < k → (throttledRun rm k items n).2.1 ≤ k) := by
  unfold throttledRun
  by_cases hg : 0 < k ∧ k ≤ n
  · rw [if_pos hg]
    exact ⟨hc, hk⟩
  · rw [if_neg hg]
    constructor
    · have := throttledRunGo_flight rm k items 0 n 0 (by simpa using hc)
      simpa using this
    · intro hkpos
      have hn : n < k := by
        rcases Nat.lt_or_ge n k with h | h
        · exact h
        · exact absurd ⟨hkpos, h⟩ hg
      exact throttledRunGo_counter_le rm k hkpos items 0 n hn

/-- check_running_jobs preserves the throttle invariant. -/
theorem geCheckGo_flight (po : Nat → PollOutcome) (eo : Nat → Nat)
    (so : Nat → SubmitOutcome) (k : Nat) :
    ∀ (items : List MapItem) (i n c : Nat),
      c + inFlightCount items ≤ n → (0 < k → n ≤ k) →
      c + inFlightCount (geCheckGo po eo so k i items n).1 ≤
        (geCheckGo po eo so k i items n).2 ∧
      (0 < k → (geCheckGo po eo so k i items n).2 ≤ k) := by
  intro items
  induction items with
  | nil =>
    intro i n c hc hk
    constructor
    · simpa [geCheckGo, inFlightCount] using hc
    · intro hkpos
      simpa [geCheckGo] using hk hkpos
  | cons it rest ih =>
    intro i n c hc hk
    rw [inFlightCount_cons] at hc
    have hfit : (if isInFlight it.status then 1 else 0) ≤ n := by omega
    have hitem := geCheckItem_flight (po i) (eo i) (so i) k it n hfit hk
    simp only [geCheckGo]
    rw [inFlightCount_cons]
    have hc2 : (c + (if isInFlight (geCheckItem (po i) (eo i) (so i) k it n).1.status
        then 1 else 0)) + inFlightCount rest ≤ (geCheckItem (po i) (eo i) (so i) k it n).2 := by
      have h1 := hitem.1
      omega
    have hrec := ih (i + 1) ((geCheckItem (po i) (eo i) (so i) k it n).2)
      (c + (if isInFlight (geCheckItem (po i) (eo i) (so i) k it n).1.status then 1 else 0))
      hc2 hitem.2
    constructor
    · omega
    · exact hrec.2

/-- The throttle invariant holds in every reachable gridengine step state:
num_running bounds the in-flight count and respects a positive limit. -/
theorem geReach_invariant (k : Nat) (s : GEState) (h : GEReach k s) :
    inFlightCount s.items ≤ s.numRunning ∧ (0 < k → s.numRunning ≤ k) := by
  induction h with
  | init items hp =>
    constructor
    · simp [inFlightCount_pending items hp]
    · intro _
      exact Nat.zero_le _
  | runStep oracle s hs ih =>
    have := throttledRun_flight (fun i it => geRunMap (oracle i) it) k s.items
      s.numRunning ih.1 ih.2
    exact this
  | checkStep po eo so s hs ih =>
    have := geCheckGo_flight po eo so k s.items 0 s.numRunning 0
      (by simpa using ih.1) ih.2
    constructor
    · simpa using this.1
    · exact this.2

/-- Claim C3, counterexample: the slurm executor enforces no throttle.  A
slurm step with throttle limit 1 and two PENDING items submits both in one
run() call, leaving two map items that are neither FINISHED nor FAILED,
which exceeds the limit 1. -/
theorem claim3_counterexample :
    (slurmRun (fun _ => SubmitOutcome.ok 1) 1
      [newMapItem "a" "a", newMapItem "b" "b"]).2.1 = [true, true] ∧
    nonTerminalCount (slurmRun (fun _ => SubmitOutcome.ok 1) 1
      [newMapItem "a" "a", newMapItem "b" "b"]).1 = 2 ∧
    ¬ (2 : Nat) ≤ 1 := by
  refine ⟨rfl, rfl, by decide⟩

/-- Claim C3 (amended): for the gridengine executor with throttle limit
k > 0, in every state reachable by the run and poll loop the number of
submitted non-terminal (in-flight) map items is at most k, and a FAILED
item is admitted to retry only through the throttle gate: with the counter
at or above the limit, check_running_jobs leaves the item unretried and the
counter unchanged.  Unsubmitted PENDING items are not counted; the slurm
executor enforces no throttle at all. -/
theorem claim3_spec (k : Nat) :
    (∀ s : GEState, GEReach k s → 0 < k → inFlightCount s.items ≤ k) ∧
    (∀ (p : PollOutcome) (e : Nat) (sub : SubmitOutcome) (it : MapItem) (n : Nat),
      0 < k → k ≤ n → it.status = Status.failed →
      (geCheckItem p e sub k it n).1 = setRunStatus it Status.failed ∧
      (geCheckItem p e sub k it n).2 = n) := by
  constructor
  · intro s hs hk
    have := geReach_invariant k s hs
    exact Nat.le_trans this.1 (this.2 hk)
  · intro p e sub it n hk hn hf
    exact (geCheckItem_spec p e sub k it n).2.2.2.1 hf hk hn

/-- Witness for claim C3: the initial state respects the limit 1, and a
concrete FAILED item facing a full throttle keeps its counter at 1. -/
theorem claim3_witness :
    inFlightCount ([] : List MapItem) ≤ 1 ∧
    (geCheckItem PollOutcome.commError 0 SubmitOutcome.commError 1
      { status := Status.failed } 1).2 = 1 :=
  ⟨(claim3_spec 1).1 ⟨[], 0⟩ (GEReach.init [] (by simp)) (by decide),
   ((claim3_spec 1).2 PollOutcome.commError 0 SubmitOutcome.commError
     { status := Status.failed } 1 (by decide) (by decide) rfl).2⟩

/-- The local polling pass never changes attempt or the run history
length. -/
theorem localCheckItem_preserve (p : LocalPollOutcome) (it : MapItem) (n : Nat) :
    (localCheckItem p it n).1.attempt = it.attempt ∧
    (localCheckItem p it n).1.run.length = it.run.length := by
  unfold localCheckItem
  by_cases h : it.status = Status.running ∨ it.status = Status.unknown
  · rw [if_pos h]
    cases p <;>
      simp [setRunStatus_attempt, setRunStatus_run_length, setRunStatus_rebuild_len]
  · rw [if_neg h]
    exact ⟨rfl, rfl⟩

/-- Claim C2, counterexample: not every executor retries an item that
transitions to FAILED with attempt below 5.  A local map item whose process
exits 1 transitions to FAILED with attempt 0, yet the local executor
appends no run record, increments nothing and resubmits nothing. -/
theorem claim2_counterexample :
    (localCheckItem (LocalPollOutcome.exited 1) { status := Status.running } 1).1.status
      = Status.failed ∧
    (localCheckItem (LocalPollOutcome.exited 1) { status := Status.running } 1).1.attempt
      = 0 ∧
    (localCheckItem (LocalPollOutcome.exited 1) { status := Status.running } 1).1.run.length
      = 1 ∧
    (0 : Nat) < 5 := by
  decide

/-- Claim C2 (amended): at every observation point every executor preserves
len(run) = attempt + 1 and attempt at most 5, and attempt never decreases;
submissions never touch attempt or the run history; on a transition to
FAILED with attempt below 5 the slurm executor always increments attempt by
one, appends exactly one fresh run record and resubmits (PENDING on a
successful submission), the gridengine executor does so exactly when the
throttle gate admits the retry and leaves attempt alone when the gate is
closed, and the local executor never retries; once a FAILED item has
attempt 5 it stays FAILED and no further run record is appended. -/
theorem claim2_spec (p : PollOutcome) (e : Nat) (sub : SubmitOutcome)
    (lp : LocalPollOutcome) (k n : Nat) (it : MapItem)
    (hwf : it.run.length = it.attempt + 1) (h5 : it.attempt ≤ 5) :
    ((slurmCheckItem p e sub it).run.length = (slurmCheckItem p e sub it).attempt + 1 ∧
     (slurmCheckItem p e sub it).attempt ≤ 5 ∧
     it.attempt ≤ (slurmCheckItem p e sub it).attempt) ∧
    ((geCheckItem p e sub k it n).1.run.length = (geCheckItem p e sub k it n).1.attempt + 1 ∧
     (geCheckItem p e sub k it n).1.attempt ≤ 5 ∧
     it.attempt ≤ (geCheckItem p e sub k it n).1.attempt) ∧
    ((localCheckItem lp it n).1.run.length = (localCheckItem lp it n).1.attempt + 1 ∧
     (localCheckItem lp it n).1.attempt = it.attempt) ∧
    (∀ (st : Status) (it2 : MapItem), drmaaRunMap st sub it = some it2 →
      it2.attempt = it.attempt ∧ it2.run.length = it.run.length) ∧
    (it.status = Status.failed → it.attempt < 5 →
      (slurmCheckItem p e sub it).attempt = it.attempt + 1 ∧
      (slurmCheckItem p e sub it).run.length = it.run.length + 1 ∧
      (∀ jobId, sub = SubmitOutcome.ok jobId →
        (slurmCheckItem p e sub it).status = Status.pending)) ∧
    (¬(it.status = Status.finished ∨ it.status = Status.failed) →
      drmaaPolledStatus slurmStatusMap p e = Status.failed → it.attempt < 5 →
      (slurmCheckItem p e sub it).attempt = it.attempt + 1 ∧
      (slurmCheckItem p e sub it).run.length = it.run.length + 1) ∧
    (it.status = Status.failed → it.attempt < 5 → (k = 0 ∨ n < k) →
      (geCheckItem p e sub k it n).1.attempt = it.attempt + 1 ∧
      (geCheckItem p e sub k it n).1.run.length = it.run.length + 1) ∧
    (it.status = Status.failed → 0 < k → k ≤ n →
      (geCheckItem p e sub k it n).1.attempt = it.attempt) ∧
    (it.status = Status.failed → it.attempt = 5 →
      (slurmCheckItem p e sub it).status = Status.failed ∧
      (slurmCheckItem p e sub it).attempt = 5 ∧
      (slurmCheckItem p e sub it).run.length = it.run.length ∧
      (geCheckItem p e sub k it n).1.status = Status.failed ∧
      (geCheckItem p e sub k it n).1.run.length = it.run.length) := by
  have hs := slurmCheckItem_spec p e sub it
  have hg := geCheckItem_spec p e sub k it n
  have hl := localCheckItem_preserve lp it n
  refine ⟨?_, ?_, ?_, ?_, ?_, ?_, ?_, ?_, ?_⟩
  · obtain ⟨hw, ha⟩ := hs.1 hwf h5
    exact ⟨hw, ha, hs.2.1⟩
  · obtain ⟨hw, ha⟩ := hg.1 hwf h5
    exact ⟨hw, ha, hg.2.1⟩
  · exact ⟨by rw [hl.1, hl.2, hwf], hl.1⟩
  · intro st it2 hsub
    have := drmaaRunMap_some_spec st sub it it2 hsub
    exact ⟨this.1, this.2.1⟩
  · exact hs.2.2.1
  · exact hs.2.2.2.1
  · exact hg.2.2.1
  · intro hf hk hn
    have := hg.2.2.2.1 hf hk hn
    rw [this.1, setRunStatus_attempt]
  · intro hf h5eq
    have hsl := hs.2.2.2.2 hf h5eq
    have hge := hg.2.2.2.2 hf h5eq
    exact ⟨hsl.1, hsl.2.1, hsl.2.2, hge.1, hge.2.2⟩

/-- Witness for claim C2: a concrete FAILED slurm item with attempt 0 and
one run record is retried into attempt 1 with two run records. -/
theorem claim2_witness :
    ({ status := Status.failed } : MapItem).run.length =
      ({ status := Status.failed } : MapItem).attempt + 1 ∧
    ({ status := Status.failed } : MapItem).attempt ≤ 5 ∧
    (slurmCheckItem PollOutcome.commError 0 (SubmitOutcome.ok 9)
      { status := Status.failed }).attempt = 0 + 1 ∧
    (slurmCheckItem PollOutcome.commError 0 (SubmitOutcome.ok 9)
      { status := Status.failed }).status = Status.pending :=
  ⟨rfl, by decide,
   ((claim2_spec PollOutcome.commError 0 (SubmitOutcome.ok 9)
     LocalPollOutcome.stillRunning 0 0 { status := Status.failed } rfl
     (by decide)).2.2.2.2.1 rfl (by decide)).1,
   (((claim2_spec PollOutcome.commError 0 (SubmitOutcome.ok 9)
     LocalPollOutcome.stillRunning 0 0 { status := Status.failed } rfl
     (by decide)).2.2.2.2.1 rfl (by decide)).2.2 9 rfl)⟩

end GeneFlow
